import Mathlib

/-!
# The statistics overlay of `src/dxvk/hud/dxvk_hud_stats.cpp`

A shallow embedding of `dxvk::hud::HudStats`: the per-frame counter
aggregation (`update`, `updateGpuLoad`), the text blocks (`print*`), their
composition (`render`) and the element filter (`filterElements`).

Conventions of the embedding.

* `uint64_t` values are natural numbers; every `uint64_t` operation that can
  leave the range is reduced modulo `2 ^ 64` explicitly (`sub64`, `mul64`,
  `toU64`).
* A `time_point` of `dxvk::high_resolution_clock` is its count of ticks, an
  `Int`; the tick is the nanosecond (period `std::nano`; the declaration of
  the clock is not among the sources).  Every read of the clock is an explicit
  argument, and the signed 64-bit range of the count is not modelled.
* The renderer is the list of `drawText` calls it receives, in call order.
* Screen coordinates are `float` in the source.  The functions are generic in
  the coordinate type `F`; only `+`, `-` and the conversion of non-negative
  integers are used.  The type `F32` is the `float` of the source: IEEE 754
  binary32 with rounding to nearest, ties to even, infinities and NaN.
  Statements on sums and on the order of coordinates are made in `F32`; the
  lemmas for a coordinate type with exact arithmetic are kept beside them.
-/

set_option linter.dupNamespace false

namespace dxvk.hud

/-! ## Machine arithmetic -/

/-- The number of values of a `uint64_t`. -/
def two64 : Nat := 18446744073709551616

/-- Subtraction of two `uint64_t` values: wraps around modulo `2 ^ 64`. -/
def sub64 (a b : Nat) : Nat := (a % two64 + (two64 - b % two64)) % two64

/-- Multiplication of two `uint64_t` values: wraps around modulo `2 ^ 64`. -/
def mul64 (a b : Nat) : Nat := (a * b) % two64

/-- Conversion of a signed 64-bit count to `uint64_t`. -/
def toU64 (i : Int) : Nat := (i % (two64 : Int)).toNat

/-- The expression `std::chrono::duration_cast<std::chrono::microseconds>(d)`
for a duration `d` in nanoseconds: division by 1000, truncated toward zero. -/
def duration_cast_microseconds (d : Int) : Int := Int.tdiv d 1000

/-- The expression `std::chrono::duration_cast<std::chrono::milliseconds>(d)`
for a duration `d` in nanoseconds: division by 1000000, truncated toward zero. -/
def duration_cast_milliseconds (d : Int) : Int := Int.tdiv d 1000000

/-! ## Counters -/

/-- Modelled from the spec: the enumeration `DxvkStatCounter` (declared in
`dxvk_stats.h`, which is not among the sources).  These are the counter
identifiers that `dxvk_hud_stats.cpp` reads. -/
inductive DxvkStatCounter
  | CmdDrawCalls
  | CmdDispatchCalls
  | CmdRenderPassCount
  | QueueSubmitCount
  | QueuePresentCount
  | PipeCountGraphics
  | PipeCountCompute
  | PipeCompilerBusy
  | MemoryAllocated
  | MemoryUsed
  | GpuIdleTicks
  deriving DecidableEq, Repr, Fintype

/-- A counter snapshot: one `uint64_t` per counter identifier. -/
abbrev DxvkStatCounters := DxvkStatCounter → Nat

/-- The method `DxvkStatCounters::getCtr`. -/
def DxvkStatCounters.getCtr (c : DxvkStatCounters) (k : DxvkStatCounter) : Nat := c k

/-- Modelled from the spec: `DxvkStatCounters::diff` (defined in
`dxvk_stats.cpp`, which is not among the sources).  The spec's Counter Differ
produces the snapshot whose value is `current[k] - previous[k]` for every key,
on unsigned 64-bit values. -/
def DxvkStatCounters.diff (current previous : DxvkStatCounters) : DxvkStatCounters :=
  fun k => sub64 (current k) (previous k)

/-! ## Overlay elements -/

/-- Modelled from the spec: the enumeration `HudElement` (declared in
`dxvk_hud_config.h`, which is not among the sources).  The six elements named
by `filterElements`, and `Other id` for every identifier it does not name. -/
inductive HudElement
  | StatDrawCalls
  | StatSubmissions
  | StatPipelines
  | StatMemory
  | StatGpuLoad
  | CompilerActivity
  | Other (id : Nat)
  deriving DecidableEq, Repr

/-- The flag set `HudElements`: a finite set of element identifiers. -/
abbrev HudElements := Finset HudElement

/-- The method `Flags::isClear`. -/
def HudElements.isClear (e : HudElements) : Bool := decide (e = ∅)

/-- The method `Flags::test`. -/
def HudElements.test (e : HudElements) (x : HudElement) : Bool := decide (x ∈ e)

/-- The function `HudStats::filterElements`. -/
def filterElements (elements : HudElements) : HudElements :=
  elements ∩ {HudElement.StatDrawCalls, HudElement.StatSubmissions,
    HudElement.StatPipelines, HudElement.StatMemory, HudElement.StatGpuLoad,
    HudElement.CompilerActivity}

/-! ## State -/

/-- The data members of `HudStats`. -/
structure HudStats where
  m_elements : HudElements
  m_prevCounters : DxvkStatCounters
  m_diffCounters : DxvkStatCounters
  m_gpuLoadUpdateTime : Int
  m_compilerShowTime : Int
  m_prevGpuIdleTicks : Nat
  m_diffGpuIdleTicks : Nat
  m_gpuLoadString : String

/-- The constructor `HudStats::HudStats`.  It initialises `m_elements` and
`m_compilerShowTime`; the initial values of the other members come from the
class declaration (`dxvk_hud_stats.h`, not among the sources) and are taken
from `decl`. -/
def HudStats.HudStats (decl : hud.HudStats) (elements : HudElements) (now : Int) :
    hud.HudStats :=
  { decl with
    m_elements := filterElements elements
    m_compilerShowTime := now }

/-- The function `HudStats::updateGpuLoad`; `now` is the clock reading. -/
def updateGpuLoad (s : HudStats) (now : Int) : HudStats :=
  let ticks := toU64 (duration_cast_microseconds (now - s.m_gpuLoadUpdateTime))
  if ticks ≥ 500000 then
    let diffGpuIdleTicks :=
      sub64 (s.m_prevCounters.getCtr DxvkStatCounter.GpuIdleTicks) s.m_prevGpuIdleTicks
    let busyTicks := if ticks > diffGpuIdleTicks then sub64 ticks diffGpuIdleTicks else 0
    { s with
      m_gpuLoadUpdateTime := now
      m_diffGpuIdleTicks := diffGpuIdleTicks
      m_prevGpuIdleTicks := s.m_prevCounters.getCtr DxvkStatCounter.GpuIdleTicks
      m_gpuLoadString := "GPU: " ++ toString (mul64 100 busyTicks / ticks) ++ "%" }
  else s

/-- The function `HudStats::update`; `device` is the snapshot returned by
`device->getStatCounters()` and `now` the clock reading of `updateGpuLoad`. -/
def update (s : HudStats) (device : DxvkStatCounters) (now : Int) : HudStats :=
  if s.m_elements.isClear then s
  else
    let nextCounters := device
    let s1 := { s with
      m_diffCounters := nextCounters.diff s.m_prevCounters
      m_prevCounters := nextCounters }
    if s1.m_elements.test HudElement.StatGpuLoad then updateGpuLoad s1 now else s1

/-! ## Rendering -/

/-- The type `HudPos`: a screen position. -/
structure HudPos (F : Type) where
  x : F
  y : F
  deriving DecidableEq, Repr

/-- A colour: red, green, blue and alpha. -/
structure HudColor where
  r : Nat
  g : Nat
  b : Nat
  a : Nat
  deriving DecidableEq, Repr

/-- The colour `{ 1.0f, 1.0f, 1.0f, 1.0f }` of every line of the overlay. -/
def white : HudColor := ⟨1, 1, 1, 1⟩

/-- One call `renderer.drawText(context, size, pos, color, text)`. -/
structure DrawText (F : Type) where
  size : Nat
  pos : HudPos F
  color : HudColor
  text : String
  deriving DecidableEq, Repr

/-- What a block returns: the position it hands back and the calls of
`drawText` it made, in order. -/
structure Block (F : Type) where
  position : HudPos F
  calls : List (DrawText F)

section Printing

variable {F : Type} [Add F] [Sub F] [NatCast F]

/-- The function `HudStats::printDrawCallStats`. -/
def printDrawCallStats (s : HudStats) (position : HudPos F) : Block F :=
  let frameCount := max (s.m_diffCounters.getCtr DxvkStatCounter.QueuePresentCount) 1
  let gpCalls := s.m_diffCounters.getCtr DxvkStatCounter.CmdDrawCalls / frameCount
  let cpCalls := s.m_diffCounters.getCtr DxvkStatCounter.CmdDispatchCalls / frameCount
  let rpCalls := s.m_diffCounters.getCtr DxvkStatCounter.CmdRenderPassCount / frameCount
  let strDrawCalls := "Draw calls:     " ++ toString gpCalls
  let strDispatchCalls := "Dispatch calls: " ++ toString cpCalls
  let strRenderPasses := "Render passes:  " ++ toString rpCalls
  { position := ⟨position.x, position.y + ((64 : Nat) : F)⟩
    calls :=
      [ ⟨16, ⟨position.x, position.y⟩, white, strDrawCalls⟩,
        ⟨16, ⟨position.x, position.y + ((20 : Nat) : F)⟩, white, strDispatchCalls⟩,
        ⟨16, ⟨position.x, position.y + ((40 : Nat) : F)⟩, white, strRenderPasses⟩ ] }

/-- The function `HudStats::printSubmissionStats`. -/
def printSubmissionStats (s : HudStats) (position : HudPos F) : Block F :=
  let frameCount := max (s.m_diffCounters.getCtr DxvkStatCounter.QueuePresentCount) 1
  let numSubmits := s.m_diffCounters.getCtr DxvkStatCounter.QueueSubmitCount / frameCount
  let strSubmissions := "Queue submissions: " ++ toString numSubmits
  { position := ⟨position.x, position.y + ((24 : Nat) : F)⟩
    calls := [ ⟨16, ⟨position.x, position.y⟩, white, strSubmissions⟩ ] }

/-- The function `HudStats::printPipelineStats`. -/
def printPipelineStats (s : HudStats) (position : HudPos F) : Block F :=
  let gpCount := s.m_prevCounters.getCtr DxvkStatCounter.PipeCountGraphics
  let cpCount := s.m_prevCounters.getCtr DxvkStatCounter.PipeCountCompute
  let strGpCount := "Graphics pipelines: " ++ toString gpCount
  let strCpCount := "Compute pipelines:  " ++ toString cpCount
  { position := ⟨position.x, position.y + ((44 : Nat) : F)⟩
    calls :=
      [ ⟨16, ⟨position.x, position.y⟩, white, strGpCount⟩,
        ⟨16, ⟨position.x, position.y + ((20 : Nat) : F)⟩, white, strCpCount⟩ ] }

/-- The function `HudStats::printMemoryStats`. -/
def printMemoryStats (s : HudStats) (position : HudPos F) : Block F :=
  let mib := 1024 * 1024
  let memAllocated := s.m_prevCounters.getCtr DxvkStatCounter.MemoryAllocated
  let memUsed := s.m_prevCounters.getCtr DxvkStatCounter.MemoryUsed
  let strMemAllocated := "Memory allocated: " ++ toString (memAllocated / mib) ++ " MB"
  let strMemUsed := "Memory used:      " ++ toString (memUsed / mib) ++ " MB"
  { position := ⟨position.x, position.y + ((44 : Nat) : F)⟩
    calls :=
      [ ⟨16, ⟨position.x, position.y⟩, white, strMemAllocated⟩,
        ⟨16, ⟨position.x, position.y + ((20 : Nat) : F)⟩, white, strMemUsed⟩ ] }

/-- The function `HudStats::printGpuLoad`. -/
def printGpuLoad (s : HudStats) (position : HudPos F) : Block F :=
  { position := ⟨position.x, position.y + ((24 : Nat) : F)⟩
    calls := [ ⟨16, ⟨position.x, position.y⟩, white, s.m_gpuLoadString⟩ ] }

/-- What `printCompilerActivity` returns, with the state it leaves. -/
structure CompilerBlock (F : Type) where
  self : HudStats
  position : HudPos F
  calls : List (DrawText F)

/-- The function `HudStats::printCompilerActivity`; `now` is the clock
reading. -/
def printCompilerActivity (s : HudStats) (now : Int) (position : HudPos F) :
    CompilerBlock F :=
  let doShow : Bool := decide (s.m_prevCounters.getCtr DxvkStatCounter.PipeCompilerBusy ≠ 0)
  let s1 : HudStats :=
    if s.m_prevCounters.getCtr DxvkStatCounter.PipeCompilerBusy ≠ 0
        ∧ s.m_diffCounters.getCtr DxvkStatCounter.PipeCompilerBusy ≠ 0 then
      { s with m_compilerShowTime := now }
    else s
  let doShow : Bool :=
    if !doShow then
      doShow || decide (duration_cast_milliseconds (now - s1.m_compilerShowTime) < 1000)
    else doShow
  { self := s1
    position := ⟨position.x, position.y + ((24 : Nat) : F)⟩
    calls :=
      if doShow then [ ⟨16, ⟨position.x, position.y⟩, white, "Compiling shaders..."⟩ ]
      else [] }

/-- What `render` returns, with the state it leaves and the calls of
`drawText` it made, in order. -/
structure Rendered (F : Type) where
  self : HudStats
  position : HudPos F
  calls : List (DrawText F)

/-- The function `HudStats::render`; `surfaceHeight` is
`renderer.surfaceSize().height` and `now` the clock reading of
`printCompilerActivity`. -/
def render (s : HudStats) (now : Int) (surfaceHeight : Nat) (position : HudPos F) :
    Rendered F :=
  let b1 : Block F :=
    if s.m_elements.test HudElement.StatSubmissions then printSubmissionStats s position
    else ⟨position, []⟩
  let b2 : Block F :=
    if s.m_elements.test HudElement.StatDrawCalls then printDrawCallStats s b1.position
    else ⟨b1.position, []⟩
  let b3 : Block F :=
    if s.m_elements.test HudElement.StatPipelines then printPipelineStats s b2.position
    else ⟨b2.position, []⟩
  let b4 : Block F :=
    if s.m_elements.test HudElement.StatMemory then printMemoryStats s b3.position
    else ⟨b3.position, []⟩
  let b5 : Block F :=
    if s.m_elements.test HudElement.StatGpuLoad then printGpuLoad s b4.position
    else ⟨b4.position, []⟩
  let c : CompilerBlock F :=
    if s.m_elements.test HudElement.CompilerActivity then
      printCompilerActivity s now ⟨b5.position.x, (surfaceHeight : F) - ((20 : Nat) : F)⟩
    else ⟨s, b5.position, []⟩
  { self := c.self
    position := b5.position
    calls := b1.calls ++ b2.calls ++ b3.calls ++ b4.calls ++ b5.calls ++ c.calls }

end Printing

/-! ## Frames -/

/-- One frame of the host loop: the snapshot the device returns to `update`,
the clock readings of `update` and of `render`, and the arguments of
`render`. -/
structure Frame (F : Type) where
  counters : DxvkStatCounters
  updateTime : Int
  renderTime : Int
  surfaceHeight : Nat
  position : HudPos F

section Frames

variable {F : Type} [Add F] [Sub F] [NatCast F]

/-- The state at the `render` of a frame: `update` has run. -/
def atRender (s : HudStats) (f : Frame F) : HudStats :=
  update s f.counters f.updateTime

/-- One frame: `update`, then `render`. -/
def frame (s : HudStats) (f : Frame F) : Rendered F :=
  render (atRender s f) f.renderTime f.surfaceHeight f.position

/-- The state after a sequence of frames. -/
def frames (s : HudStats) : List (Frame F) → HudStats
  | [] => s
  | f :: fs => frames (frame s f).self fs

end Frames

/-! ## Quantities named by the specification -/

/-- The elapsed time `ticks` of `updateGpuLoad`: the microseconds between the
last sample and `now`, as the `uint64_t` the source computes. -/
def elapsedMicros (s : HudStats) (now : Int) : Nat :=
  toU64 (duration_cast_microseconds (now - s.m_gpuLoadUpdateTime))

/-- The idle time `m_diffGpuIdleTicks` that `updateGpuLoad` computes. -/
def idleDelta (s : HudStats) : Nat :=
  sub64 (s.m_prevCounters.getCtr DxvkStatCounter.GpuIdleTicks) s.m_prevGpuIdleTicks

/-- The specification's `busyTicks`, in exact arithmetic:
`elapsedMicros > idleDelta ? elapsedMicros - idleDelta : 0`. -/
def busyTicksSpec (elapsed idle : Nat) : Nat :=
  if elapsed > idle then elapsed - idle else 0

/-- The specification's `loadPercent`, in exact arithmetic:
`(100 * busyTicks) / elapsedMicros`. -/
def loadPercentSpec (elapsed idle : Nat) : Nat :=
  (100 * busyTicksSpec elapsed idle) / elapsed

/-- The specification's per-frame value of a counter of the diff snapshot:
`diff[counter] / max(diff[QueuePresentCount], 1)`. -/
def perFrameSpec (d : DxvkStatCounters) (k : DxvkStatCounter) : Nat :=
  d k / max (d DxvkStatCounter.QueuePresentCount) 1

/-- The specification's `currentlyBusy`: the stored snapshot's
`PipeCompilerBusy` is not zero. -/
def currentlyBusySpec (s : HudStats) : Prop :=
  s.m_prevCounters DxvkStatCounter.PipeCompilerBusy ≠ 0

instance (s : HudStats) : Decidable (currentlyBusySpec s) := by
  unfold currentlyBusySpec; infer_instance

/-- The specification's `lastShownTime` at a render: set to `now` when
`currentlyBusy` and `diff.PipeCompilerBusy != 0`, the stored value
otherwise. -/
def lastShownTimeSpec (s : HudStats) (now : Int) : Int :=
  if currentlyBusySpec s ∧ s.m_diffCounters DxvkStatCounter.PipeCompilerBusy ≠ 0 then now
  else s.m_compilerShowTime

/-- The specification's `visible`:
`currentlyBusy || (now - lastShownTime < 1000ms)`, in whole milliseconds. -/
def visibleSpec (s : HudStats) (now : Int) : Prop :=
  currentlyBusySpec s ∨ Int.tdiv (now - lastShownTimeSpec s now) 1000000 < 1000

instance (s : HudStats) (now : Int) : Decidable (visibleSpec s now) := by
  unfold visibleSpec; infer_instance

/-- The states after a sequence of calls of `update`, each with the snapshot
the device returns and the clock reading of that call. -/
def updates (s : HudStats) : List (DxvkStatCounters × Int) → HudStats
  | [] => s
  | c :: cs => updates (update s c.1 c.2) cs

/-- The line of the compiler-activity indicator at a position. -/
def compilerLine {F : Type} (position : HudPos F) : DrawText F :=
  ⟨16, position, white, "Compiling shaders..."⟩

/-! ## Concrete snapshots and states -/

/-- The snapshot whose counters are all zero. -/
def zeroCounters : DxvkStatCounters := fun _ => 0

/-- The snapshot with the value `v` at the counter `k` and zero elsewhere. -/
def oneCounter (k : DxvkStatCounter) (v : Nat) : DxvkStatCounters :=
  fun j => if j = k then v else 0

/-- A state with the elements `e`, the stored snapshot `prev`, a zero diff,
both times at the epoch and the load string `"GPU: "`. -/
def stateWith (e : HudElements) (prev : DxvkStatCounters) : HudStats :=
  { m_elements := e
    m_prevCounters := prev
    m_diffCounters := zeroCounters
    m_gpuLoadUpdateTime := 0
    m_compilerShowTime := 0
    m_prevGpuIdleTicks := 0
    m_diffGpuIdleTicks := 0
    m_gpuLoadString := "GPU: " }

/-- A frame over integer coordinates, on a surface 1080 high, whose snapshot
has the compiler-busy flag `busy` and whose clock reads `t` in both calls. -/
def busyFrame (busy : Nat) (t : Int) : Frame Int :=
  { counters := oneCounter DxvkStatCounter.PipeCompilerBusy busy
    updateTime := t
    renderTime := t
    surfaceHeight := 1080
    position := ⟨0, 0⟩ }

/-- An overlay with the compiler-activity element alone, constructed at the
epoch. -/
def compilerOverlay : HudStats :=
  HudStats.HudStats (stateWith ∅ zeroCounters) {HudElement.CompilerActivity} 0

/-! ## The stack of blocks -/

/-- The specification's order of the stacked blocks: submissions, draw calls,
pipeline stats, memory stats, GPU load. -/
def stackOrder : List HudElement :=
  [HudElement.StatSubmissions, HudElement.StatDrawCalls, HudElement.StatPipelines,
    HudElement.StatMemory, HudElement.StatGpuLoad]

/-- The specification's block heights; an element outside the stack takes no
room in it. -/
def blockHeightSpec : HudElement → Nat
  | HudElement.StatSubmissions => 24
  | HudElement.StatDrawCalls => 64
  | HudElement.StatPipelines => 44
  | HudElement.StatMemory => 44
  | HudElement.StatGpuLoad => 24
  | _ => 0

/-- The stacked elements of a set, in the specification's order. -/
def enabledStack (e : HudElements) : List HudElement :=
  stackOrder.filter (fun x => decide (x ∈ e))

/-- The specification's `H`: the sum of the block heights of the enabled
stacked elements. -/
def stackHeightSpec (e : HudElements) : Nat :=
  ((enabledStack e).map blockHeightSpec).sum

section Stack

variable {F : Type} [Add F] [NatCast F]

/-- The block of one element at a position: what the `print` function of a
stacked element returns; nothing for the other elements. -/
def blockOf (s : HudStats) (e : HudElement) (position : HudPos F) : Block F :=
  match e with
  | HudElement.StatSubmissions => printSubmissionStats s position
  | HudElement.StatDrawCalls => printDrawCallStats s position
  | HudElement.StatPipelines => printPipelineStats s position
  | HudElement.StatMemory => printMemoryStats s position
  | HudElement.StatGpuLoad => printGpuLoad s position
  | _ => ⟨position, []⟩

/-- The specification's stack: the blocks of a list of elements, each started
at the position the block before it returned, and their calls concatenated. -/
def stackBlocks (s : HudStats) : List HudElement → HudPos F → Block F
  | [], position => ⟨position, []⟩
  | e :: es, position =>
    { position := (stackBlocks s es (blockOf s e position).position).position
      calls := (blockOf s e position).calls
        ++ (stackBlocks s es (blockOf s e position).position).calls }

end Stack

/-- The percentage `(100 * busyTicks) / ticks` that `updateGpuLoad` formats,
as the source computes it from `ticks` and `m_diffGpuIdleTicks`. -/
def gpuLoadPercent (ticks diffGpuIdleTicks : Nat) : Nat :=
  mul64 100 (if ticks > diffGpuIdleTicks then sub64 ticks diffGpuIdleTicks else 0) / ticks

/-! ## The type `float` of the positions -/

/-- The number of low bits a magnitude has beyond 24 significant bits: the
number of halvings that bring `n` below `2 ^ 24`.  The first argument bounds
the recursion; `excessBits n n` has enough room for every `n`. -/
def excessBits : Nat → Nat → Nat
  | 0, _ => 0
  | fuel + 1, n => if n < 16777216 then 0 else excessBits fuel (n / 2) + 1

/-- Rounding of a magnitude to 24 significant bits, to nearest, ties to even:
the default rounding of IEEE 754 binary32 arithmetic. -/
def roundMagnitude (n : Nat) : Nat :=
  if n < 16777216 then n
  else
    let k := excessBits n n
    let q := n / 2 ^ k
    let r := n % 2 ^ k
    let half := 2 ^ (k - 1)
    (if r > half ∨ (r = half ∧ q % 2 = 1) then q + 1 else q) * 2 ^ k

/-- The type `float` of `HudPos`: IEEE 754 binary32.  A finite value is counted
in units of `2 ^ -149`, the smallest positive `float`, so that every finite
`float` is an integer; the sign of zero is not modelled.  The finite `float`
are the `fin n` with `roundMagnitude n.natAbs = n.natAbs` below `2 ^ 128`;
the arithmetic returns no other value. -/
inductive F32
  | fin (n : Int)
  | inf (negative : Bool)
  | nan
  deriving DecidableEq, Repr

/-- The value `1.0f` in units of `2 ^ -149`. -/
def F32.unit : Nat := 2 ^ 149

/-- The magnitude `2 ^ 128` in units of `2 ^ -149`: a rounded result of this
size or more is an infinity. -/
def F32.overflow : Nat := 2 ^ 128 * 2 ^ 149

/-- The `float` nearest to an exact value given in units of `2 ^ -149`. -/
def F32.ofInt (n : Int) : F32 :=
  if roundMagnitude n.natAbs ≥ F32.overflow then F32.inf (decide (n < 0))
  else
    F32.fin (if n < 0 then -(roundMagnitude n.natAbs : Int) else (roundMagnitude n.natAbs : Int))

/-- Addition of two `float`: the exact sum, rounded. -/
def F32.add : F32 → F32 → F32
  | F32.fin a, F32.fin b => F32.ofInt (a + b)
  | F32.fin _, F32.inf t => F32.inf t
  | F32.inf s, F32.fin _ => F32.inf s
  | F32.inf s, F32.inf t => if s = t then F32.inf s else F32.nan
  | _, _ => F32.nan

/-- Negation of a `float`. -/
def F32.neg : F32 → F32
  | F32.fin a => F32.fin (-a)
  | F32.inf s => F32.inf (!s)
  | F32.nan => F32.nan

/-- The comparison `<` of two `float`. -/
def F32.lt : F32 → F32 → Bool
  | F32.fin a, F32.fin b => decide (a < b)
  | F32.fin _, F32.inf t => !t
  | F32.inf s, F32.fin _ => s
  | F32.inf s, F32.inf t => s && !t
  | _, _ => false

instance : Add F32 := ⟨F32.add⟩

instance : Sub F32 := ⟨fun a b => F32.add a (F32.neg b)⟩

instance : NatCast F32 := ⟨fun n => F32.ofInt ((n : Int) * (F32.unit : Int))⟩

instance : LT F32 := ⟨fun a b => F32.lt a b = true⟩

instance (a b : F32) : Decidable (a < b) := by
  show Decidable (F32.lt a b = true)
  infer_instance

/-- The specification's line offsets of a block: 0, 20 and 40, as many as the
block has lines. -/
def lineOffsetsSpec : HudElement → List Nat
  | HudElement.StatSubmissions => [0]
  | HudElement.StatDrawCalls => [0, 20, 40]
  | HudElement.StatPipelines => [0, 20]
  | HudElement.StatMemory => [0, 20]
  | HudElement.StatGpuLoad => [0]
  | _ => []

/-- The specification's ordinates of the lines of a stack that starts at `y`:
each block draws at its offsets from its own start, and the next block starts
at that start plus the height of the block. -/
def stackOrdinatesSpec : List HudElement → Nat → List Nat
  | [], _ => []
  | e :: es, y =>
    (lineOffsetsSpec e).map (fun o => y + o) ++ stackOrdinatesSpec es (y + blockHeightSpec e)

/-- A state with the pipeline and the memory block enabled. -/
def pipelinesAndMemory : HudStats :=
  stateWith {HudElement.StatPipelines, HudElement.StatMemory} zeroCounters

/-- A state with the draw-call block enabled. -/
def drawCallsOnly : HudStats :=
  stateWith {HudElement.StatDrawCalls} zeroCounters

/-! ## Arithmetic lemmas -/

theorem sub64_of_le {a b : Nat} (hba : b ≤ a) (ha : a < two64) : sub64 a b = a - b := by
  unfold sub64 two64 at *
  omega

theorem sub64_lt (a b : Nat) : sub64 a b < two64 := by
  unfold sub64 two64
  omega

theorem micros_of_window {d : Int} (h0 : 0 ≤ d) (h1 : d < 500000000) :
    toU64 (duration_cast_microseconds d) < 500000 := by
  unfold toU64 duration_cast_microseconds two64
  rw [Int.tdiv_eq_ediv h0 (by decide)]
  omega

theorem micros_fits {d : Int} (h0 : 0 ≤ d) (h1 : d < 9223372036854775808) :
    100 * toU64 (duration_cast_microseconds d) < two64 := by
  unfold toU64 duration_cast_microseconds two64
  rw [Int.tdiv_eq_ediv h0 (by decide)]
  omega

theorem millis_lt_of_lt {d : Int} (h : d < 1000000000) :
    duration_cast_milliseconds d < 1000 := by
  unfold duration_cast_milliseconds
  rcases le_or_lt 0 d with h0 | h0
  · rw [Int.tdiv_eq_ediv h0 (by decide)]
    omega
  · have h1 : d = -(-d) := by omega
    rw [h1, Int.neg_tdiv, Int.tdiv_eq_ediv (by omega) (by decide)]
    omega

theorem millis_ge_of_ge {d : Int} (h : 1000000000 ≤ d) :
    ¬ duration_cast_milliseconds d < 1000 := by
  unfold duration_cast_milliseconds
  rw [Int.tdiv_eq_ediv (by omega) (by decide)]
  omega

/-! ## Lemmas on `update` -/

theorem isClear_eq_false {e : HudElements} (h : e ≠ ∅) : e.isClear = false := by
  simp [HudElements.isClear, h]

theorem test_eq_true {e : HudElements} {x : HudElement} (h : x ∈ e) : e.test x = true := by
  simp [HudElements.test, h]

theorem updateGpuLoad_elements (s : HudStats) (now : Int) :
    (updateGpuLoad s now).m_elements = s.m_elements := by
  unfold updateGpuLoad
  dsimp only
  split <;> rfl

theorem updateGpuLoad_prev (s : HudStats) (now : Int) :
    (updateGpuLoad s now).m_prevCounters = s.m_prevCounters := by
  unfold updateGpuLoad
  dsimp only
  split <;> rfl

theorem updateGpuLoad_diff (s : HudStats) (now : Int) :
    (updateGpuLoad s now).m_diffCounters = s.m_diffCounters := by
  unfold updateGpuLoad
  dsimp only
  split <;> rfl

theorem updateGpuLoad_showTime (s : HudStats) (now : Int) :
    (updateGpuLoad s now).m_compilerShowTime = s.m_compilerShowTime := by
  unfold updateGpuLoad
  dsimp only
  split <;> rfl

theorem updateGpuLoad_window (s : HudStats) (now : Int)
    (h0 : s.m_gpuLoadUpdateTime ≤ now) (h1 : now - s.m_gpuLoadUpdateTime < 500000000) :
    updateGpuLoad s now = s := by
  have h := micros_of_window (d := now - s.m_gpuLoadUpdateTime) (by omega) h1
  unfold updateGpuLoad
  dsimp only
  rw [if_neg (by omega)]

theorem elapsedMicros_fits (s : HudStats) (now : Int) (h0 : s.m_gpuLoadUpdateTime ≤ now)
    (h1 : now - s.m_gpuLoadUpdateTime < 9223372036854775808) :
    100 * elapsedMicros s now < two64 :=
  micros_fits (d := now - s.m_gpuLoadUpdateTime) (by omega) h1

theorem update_elements (s : HudStats) (c : DxvkStatCounters) (now : Int) :
    (update s c now).m_elements = s.m_elements := by
  unfold update
  dsimp only
  split
  · rfl
  · split
    · rw [updateGpuLoad_elements]
    · rfl

theorem update_prev (s : HudStats) (c : DxvkStatCounters) (now : Int)
    (h : s.m_elements ≠ ∅) : (update s c now).m_prevCounters = c := by
  unfold update
  dsimp only
  rw [isClear_eq_false h]
  simp only [Bool.false_eq_true, if_false]
  split
  · rw [updateGpuLoad_prev]
  · rfl

theorem update_diff (s : HudStats) (c : DxvkStatCounters) (now : Int)
    (h : s.m_elements ≠ ∅) : (update s c now).m_diffCounters = c.diff s.m_prevCounters := by
  unfold update
  dsimp only
  rw [isClear_eq_false h]
  simp only [Bool.false_eq_true, if_false]
  split
  · rw [updateGpuLoad_diff]
  · rfl

theorem update_showTime (s : HudStats) (c : DxvkStatCounters) (now : Int) :
    (update s c now).m_compilerShowTime = s.m_compilerShowTime := by
  unfold update
  dsimp only
  split
  · rfl
  · split
    · rw [updateGpuLoad_showTime]
    · rfl

/-! ## The snapshots kept by `update` -/

/-- C1: when the filtered element set is not empty, the fresh snapshot `c` is
well formed and every counter of `c` is at least its value in the stored
snapshot, `update` leaves the diff equal to `c[k] - p[k]` for every counter
`k`, exactly (adding `p[k]` back gives `c[k]`), and stores `c` as the previous
snapshot. -/
theorem update_diff_exact (s : HudStats) (c : DxvkStatCounters) (now : Int)
    (hne : s.m_elements ≠ ∅) (hc : ∀ k, c k < two64)
    (hmono : ∀ k, s.m_prevCounters k ≤ c k) :
    (∀ k, (update s c now).m_diffCounters k = c k - s.m_prevCounters k
        ∧ (update s c now).m_diffCounters k + s.m_prevCounters k = c k)
      ∧ (update s c now).m_prevCounters = c := by
  refine ⟨fun k => ?_, update_prev s c now hne⟩
  rw [update_diff s c now hne]
  have h := sub64_of_le (hmono k) (hc k)
  have hk := hmono k
  show sub64 (c k) (s.m_prevCounters k) = _ ∧ sub64 (c k) (s.m_prevCounters k) + _ = _
  rw [h]
  exact ⟨rfl, Nat.sub_add_cancel hk⟩

/-- An instance: the draw-call counter goes from 5 to 12 with the draw-call
element enabled. -/
theorem update_diff_exact_witness :
    (stateWith {HudElement.StatDrawCalls}
        (oneCounter DxvkStatCounter.CmdDrawCalls 5)).m_elements ≠ ∅
      ∧ (∀ k, oneCounter DxvkStatCounter.CmdDrawCalls 12 k < two64)
      ∧ (∀ k, (stateWith {HudElement.StatDrawCalls}
            (oneCounter DxvkStatCounter.CmdDrawCalls 5)).m_prevCounters k
          ≤ oneCounter DxvkStatCounter.CmdDrawCalls 12 k)
      ∧ ((∀ k, (update (stateWith {HudElement.StatDrawCalls}
              (oneCounter DxvkStatCounter.CmdDrawCalls 5))
              (oneCounter DxvkStatCounter.CmdDrawCalls 12) 7).m_diffCounters k
            = oneCounter DxvkStatCounter.CmdDrawCalls 12 k
              - (stateWith {HudElement.StatDrawCalls}
                  (oneCounter DxvkStatCounter.CmdDrawCalls 5)).m_prevCounters k
          ∧ (update (stateWith {HudElement.StatDrawCalls}
              (oneCounter DxvkStatCounter.CmdDrawCalls 5))
              (oneCounter DxvkStatCounter.CmdDrawCalls 12) 7).m_diffCounters k
              + (stateWith {HudElement.StatDrawCalls}
                  (oneCounter DxvkStatCounter.CmdDrawCalls 5)).m_prevCounters k
            = oneCounter DxvkStatCounter.CmdDrawCalls 12 k)
        ∧ (update (stateWith {HudElement.StatDrawCalls}
              (oneCounter DxvkStatCounter.CmdDrawCalls 5))
              (oneCounter DxvkStatCounter.CmdDrawCalls 12) 7).m_prevCounters
            = oneCounter DxvkStatCounter.CmdDrawCalls 12) :=
  ⟨by decide, by decide, by decide,
    update_diff_exact _ _ 7 (by decide) (by decide) (by decide)⟩

/-! ## Per-frame values -/

/-- C2: for every diff snapshot, the values shown by `printSubmissionStats`
and `printDrawCallStats` are the specification's per-frame values
`d[counter] / max(d[QueuePresentCount], 1)`; the divisor is positive, and the
per-frame value is `d[counter]` itself when `d[QueuePresentCount]` is zero
(and `d[counter] / d[QueuePresentCount]` otherwise). -/
theorem perFrame_values {F : Type} [Add F] [NatCast F] (s : HudStats) (position : HudPos F) :
    (printSubmissionStats s position).calls.map DrawText.text
        = ["Queue submissions: "
            ++ toString (perFrameSpec s.m_diffCounters DxvkStatCounter.QueueSubmitCount)]
      ∧ (printDrawCallStats s position).calls.map DrawText.text
        = ["Draw calls:     "
            ++ toString (perFrameSpec s.m_diffCounters DxvkStatCounter.CmdDrawCalls),
          "Dispatch calls: "
            ++ toString (perFrameSpec s.m_diffCounters DxvkStatCounter.CmdDispatchCalls),
          "Render passes:  "
            ++ toString (perFrameSpec s.m_diffCounters DxvkStatCounter.CmdRenderPassCount)]
      ∧ 0 < max (s.m_diffCounters DxvkStatCounter.QueuePresentCount) 1
      ∧ ∀ k, perFrameSpec s.m_diffCounters k
          = if s.m_diffCounters DxvkStatCounter.QueuePresentCount = 0 then s.m_diffCounters k
            else s.m_diffCounters k / s.m_diffCounters DxvkStatCounter.QueuePresentCount := by
  refine ⟨rfl, rfl, by omega, fun k => ?_⟩
  unfold perFrameSpec
  split
  · next h => rw [h]; simp
  · next h => rw [Nat.max_eq_left (by omega)]

/-! ## The GPU load estimator -/

theorem updateGpuLoad_string_of_fit (s : HudStats) (now : Int)
    (hgate : 500000 ≤ elapsedMicros s now) (hfit : 100 * elapsedMicros s now < two64) :
    (updateGpuLoad s now).m_gpuLoadString
      = "GPU: " ++ toString (loadPercentSpec (elapsedMicros s now) (idleDelta s)) ++ "%" := by
  have hidle := sub64_lt (s.m_prevCounters.getCtr DxvkStatCounter.GpuIdleTicks)
    s.m_prevGpuIdleTicks
  unfold updateGpuLoad
  dsimp only
  change (if elapsedMicros s now ≥ 500000 then _ else s).m_gpuLoadString = _
  rw [if_pos hgate]
  change "GPU: " ++ toString (mul64 100
      (if elapsedMicros s now > idleDelta s then sub64 (elapsedMicros s now) (idleDelta s)
        else 0) / elapsedMicros s now) ++ "%" = _
  have hbusy : mul64 100
      (if elapsedMicros s now > idleDelta s then sub64 (elapsedMicros s now) (idleDelta s)
        else 0) = 100 * busyTicksSpec (elapsedMicros s now) (idleDelta s) := by
    unfold busyTicksSpec mul64
    split
    · next hgt =>
      rw [sub64_of_le (Nat.le_of_lt hgt) (by unfold two64 at *; omega)]
      apply Nat.mod_eq_of_lt
      unfold two64 at *
      omega
    · simp [two64]
  rw [hbusy]
  rfl

/-- C3: on a clock that has not gone back since the last sample (the
duration fitting the signed 64-bit count of the clock), for every elapsed time
of at least 500000 microseconds and every idle delta, `updateGpuLoad` caches
`"GPU: <loadPercent>%"` with `busyTicks` and `loadPercent` as the
specification defines them, in exact arithmetic; the divisor is not zero; and
an elapsed time of 500000 with an idle time of 400000 gives `busyTicks` 100000
and `loadPercent` 20. -/
theorem updateGpuLoad_string (s : HudStats) (now : Int)
    (hclock : s.m_gpuLoadUpdateTime ≤ now)
    (hrange : now - s.m_gpuLoadUpdateTime < 9223372036854775808)
    (hgate : 500000 ≤ elapsedMicros s now) :
    (updateGpuLoad s now).m_gpuLoadString
        = "GPU: " ++ toString (loadPercentSpec (elapsedMicros s now) (idleDelta s)) ++ "%"
      ∧ elapsedMicros s now ≠ 0
      ∧ busyTicksSpec 500000 400000 = 100000
      ∧ loadPercentSpec 500000 400000 = 20 :=
  ⟨updateGpuLoad_string_of_fit s now hgate (elapsedMicros_fits s now hclock hrange),
    by omega, by decide, by decide⟩

/-- An instance: 500000 microseconds elapsed, of which 400000 idle, give
`"GPU: 20%"`. -/
theorem updateGpuLoad_string_witness :
    (stateWith {HudElement.StatGpuLoad}
        (oneCounter DxvkStatCounter.GpuIdleTicks 400000)).m_gpuLoadUpdateTime ≤ 500000000
      ∧ 500000 ≤ elapsedMicros
        (stateWith {HudElement.StatGpuLoad} (oneCounter DxvkStatCounter.GpuIdleTicks 400000))
        500000000
      ∧ idleDelta
        (stateWith {HudElement.StatGpuLoad} (oneCounter DxvkStatCounter.GpuIdleTicks 400000))
        = 400000
      ∧ (updateGpuLoad
        (stateWith {HudElement.StatGpuLoad} (oneCounter DxvkStatCounter.GpuIdleTicks 400000))
        500000000).m_gpuLoadString = "GPU: 20%" :=
  ⟨by decide, by decide, by decide,
    (updateGpuLoad_string
      (stateWith {HudElement.StatGpuLoad} (oneCounter DxvkStatCounter.GpuIdleTicks 400000))
      500000000 (by decide) (by decide) (by decide)).1.trans (by decide)⟩

theorem update_window (s : HudStats) (c : DxvkStatCounters) (now : Int)
    (h0 : s.m_gpuLoadUpdateTime ≤ now) (h1 : now - s.m_gpuLoadUpdateTime < 500000000) :
    (update s c now).m_gpuLoadUpdateTime = s.m_gpuLoadUpdateTime
      ∧ (update s c now).m_prevGpuIdleTicks = s.m_prevGpuIdleTicks
      ∧ (update s c now).m_gpuLoadString = s.m_gpuLoadString := by
  unfold update
  dsimp only
  split
  · exact ⟨rfl, rfl, rfl⟩
  · split
    · rw [updateGpuLoad_window _ now (by exact h0) (by exact h1)]
      exact ⟨rfl, rfl, rfl⟩
    · exact ⟨rfl, rfl, rfl⟩

theorem updates_window (s : HudStats) (cs : List (DxvkStatCounters × Int))
    (h : ∀ c ∈ cs, s.m_gpuLoadUpdateTime ≤ c.2 ∧ c.2 - s.m_gpuLoadUpdateTime < 500000000) :
    (updates s cs).m_gpuLoadUpdateTime = s.m_gpuLoadUpdateTime
      ∧ (updates s cs).m_prevGpuIdleTicks = s.m_prevGpuIdleTicks
      ∧ (updates s cs).m_gpuLoadString = s.m_gpuLoadString := by
  induction cs generalizing s with
  | nil => exact ⟨rfl, rfl, rfl⟩
  | cons c cs ih =>
    have hc := h c (List.mem_cons_self c cs)
    obtain ⟨e1, e2, e3⟩ := update_window s c.1 c.2 hc.1 hc.2
    have hrest : ∀ d ∈ cs, (update s c.1 c.2).m_gpuLoadUpdateTime ≤ d.2
        ∧ d.2 - (update s c.1 c.2).m_gpuLoadUpdateTime < 500000000 := by
      intro d hd
      rw [e1]
      exact h d (List.mem_cons_of_mem c hd)
    obtain ⟨i1, i2, i3⟩ := ih (update s c.1 c.2) hrest
    exact ⟨i1.trans e1, i2.trans e2, i3.trans e3⟩

/-- C4: a call of `update` made less than 500000 microseconds after the last
GPU-load sample leaves the sample time, the idle ticks captured at the sample
and the cached load string unchanged; and so does every sequence of calls made
inside that window, whatever snapshots the calls receive. -/
theorem update_inside_window (s : HudStats) (c : DxvkStatCounters) (now : Int)
    (cs : List (DxvkStatCounters × Int))
    (hafter : s.m_gpuLoadUpdateTime ≤ now)
    (hless : now - s.m_gpuLoadUpdateTime < 500000 * 1000)
    (hall : ∀ d ∈ cs, s.m_gpuLoadUpdateTime ≤ d.2
      ∧ d.2 - s.m_gpuLoadUpdateTime < 500000 * 1000) :
    ((update s c now).m_gpuLoadUpdateTime = s.m_gpuLoadUpdateTime
        ∧ (update s c now).m_prevGpuIdleTicks = s.m_prevGpuIdleTicks
        ∧ (update s c now).m_gpuLoadString = s.m_gpuLoadString)
      ∧ ((updates s cs).m_gpuLoadUpdateTime = s.m_gpuLoadUpdateTime
        ∧ (updates s cs).m_prevGpuIdleTicks = s.m_prevGpuIdleTicks
        ∧ (updates s cs).m_gpuLoadString = s.m_gpuLoadString) :=
  ⟨update_window s c now hafter (by omega),
    updates_window s cs (fun d hd => ⟨(hall d hd).1, by have := (hall d hd).2; omega⟩)⟩

/-- An instance: two calls, 16 ms and just under 500 ms after the sample at
the epoch, keep the cached string. -/
theorem update_inside_window_witness :
    (stateWith {HudElement.StatGpuLoad} zeroCounters).m_gpuLoadUpdateTime ≤ 499999999
      ∧ (499999999 : Int) - (stateWith {HudElement.StatGpuLoad} zeroCounters).m_gpuLoadUpdateTime
        < 500000 * 1000
      ∧ (update (stateWith {HudElement.StatGpuLoad} zeroCounters)
          (oneCounter DxvkStatCounter.GpuIdleTicks 9) 499999999).m_gpuLoadString = "GPU: "
      ∧ (updates (stateWith {HudElement.StatGpuLoad} zeroCounters)
          [(oneCounter DxvkStatCounter.GpuIdleTicks 7, 16000000),
            (oneCounter DxvkStatCounter.GpuIdleTicks 9, 499999999)]).m_gpuLoadString
        = "GPU: " :=
  ⟨by decide, by decide,
    (update_inside_window (stateWith {HudElement.StatGpuLoad} zeroCounters)
      (oneCounter DxvkStatCounter.GpuIdleTicks 9) 499999999
      [(oneCounter DxvkStatCounter.GpuIdleTicks 7, 16000000),
        (oneCounter DxvkStatCounter.GpuIdleTicks 9, 499999999)]
      (by decide) (by decide) (by decide)).1.2.2,
    (update_inside_window (stateWith {HudElement.StatGpuLoad} zeroCounters)
      (oneCounter DxvkStatCounter.GpuIdleTicks 9) 499999999
      [(oneCounter DxvkStatCounter.GpuIdleTicks 7, 16000000),
        (oneCounter DxvkStatCounter.GpuIdleTicks 9, 499999999)]
      (by decide) (by decide) (by decide)).2.2.2⟩

/-! ## The compiler-activity indicator -/

theorem printCompilerActivity_self {F : Type} [Add F] [NatCast F] (s : HudStats) (now : Int)
    (position : HudPos F) :
    (printCompilerActivity s now position).self
      = if s.m_prevCounters DxvkStatCounter.PipeCompilerBusy ≠ 0
            ∧ s.m_diffCounters DxvkStatCounter.PipeCompilerBusy ≠ 0 then
          { s with m_compilerShowTime := now }
        else s := rfl

theorem printCompilerActivity_calls {F : Type} [Add F] [NatCast F] (s : HudStats) (now : Int)
    (position : HudPos F) :
    (printCompilerActivity s now position).calls
      = if visibleSpec s now then [compilerLine position] else [] := by
  unfold printCompilerActivity visibleSpec lastShownTimeSpec currentlyBusySpec compilerLine
    duration_cast_milliseconds DxvkStatCounters.getCtr
  dsimp only
  by_cases hb : s.m_prevCounters DxvkStatCounter.PipeCompilerBusy = 0
  · by_cases hd : s.m_diffCounters DxvkStatCounter.PipeCompilerBusy = 0 <;>
      by_cases ht : (now - s.m_compilerShowTime).tdiv 1000000 < 1000 <;>
      simp [hb, hd, ht]
  · by_cases hd : s.m_diffCounters DxvkStatCounter.PipeCompilerBusy = 0 <;> simp [hb, hd]

theorem visibleSpec_idle (s : HudStats) (now : Int)
    (h : s.m_prevCounters DxvkStatCounter.PipeCompilerBusy = 0) :
    visibleSpec s now ↔ duration_cast_milliseconds (now - s.m_compilerShowTime) < 1000 := by
  unfold visibleSpec lastShownTimeSpec currentlyBusySpec duration_cast_milliseconds
  simp [h]

/-- C5: whenever `printCompilerActivity` runs, it draws exactly the line
`"Compiling shaders..."` when the specification's `visible` holds and nothing
otherwise, so the line is drawn if and only if `visible`; and the
`m_compilerShowTime` it leaves is the specification's `lastShownTime`. -/
theorem compilerActivity_drawn_iff_visible {F : Type} [Add F] [NatCast F] (s : HudStats)
    (now : Int) (position : HudPos F) :
    (printCompilerActivity s now position).calls
        = (if visibleSpec s now then [compilerLine position] else [])
      ∧ (compilerLine position ∈ (printCompilerActivity s now position).calls
          ↔ visibleSpec s now)
      ∧ (printCompilerActivity s now position).self.m_compilerShowTime
        = lastShownTimeSpec s now := by
  refine ⟨printCompilerActivity_calls s now position, ?_, ?_⟩
  · rw [printCompilerActivity_calls]
    split <;> simp [*]
  · rw [printCompilerActivity_self]
    unfold lastShownTimeSpec currentlyBusySpec
    split <;> rfl

/-! ## An empty element set -/

/-- C9: when the filtered element set is empty, `update` returns the state it
was given, whatever the device returns and whatever the clock reads: both
snapshots, the GPU-load sample time, the captured idle ticks, the cached load
string and `m_compilerShowTime` keep their values. -/
theorem update_clear (s : HudStats) (c : DxvkStatCounters) (now : Int)
    (h : s.m_elements = ∅) :
    update s c now = s
      ∧ (update s c now).m_prevCounters = s.m_prevCounters
      ∧ (update s c now).m_diffCounters = s.m_diffCounters
      ∧ (update s c now).m_gpuLoadUpdateTime = s.m_gpuLoadUpdateTime
      ∧ (update s c now).m_prevGpuIdleTicks = s.m_prevGpuIdleTicks
      ∧ (update s c now).m_gpuLoadString = s.m_gpuLoadString
      ∧ (update s c now).m_compilerShowTime = s.m_compilerShowTime := by
  have hs : update s c now = s := by
    unfold update
    simp [HudElements.isClear, h]
  rw [hs]
  exact ⟨rfl, rfl, rfl, rfl, rfl, rfl, rfl⟩

/-- An instance: no element enabled, a busy snapshot and a late clock
reading. -/
theorem update_clear_witness :
    (stateWith ∅ zeroCounters).m_elements = ∅
      ∧ (update (stateWith ∅ zeroCounters) (oneCounter DxvkStatCounter.PipeCompilerBusy 1)
          900000000).m_prevCounters = zeroCounters :=
  ⟨rfl,
    (update_clear (stateWith ∅ zeroCounters) (oneCounter DxvkStatCounter.PipeCompilerBusy 1)
      900000000 rfl).2.1⟩

/-- C10: when the filtered element set is empty, `render` makes no call of
`drawText`, returns the position it was given and leaves the state as it
was. -/
theorem render_clear {F : Type} [Add F] [Sub F] [NatCast F] (s : HudStats) (now : Int)
    (surfaceHeight : Nat) (position : HudPos F) (h : s.m_elements = ∅) :
    (render s now surfaceHeight position).calls = []
      ∧ (render s now surfaceHeight position).position = position
      ∧ (render s now surfaceHeight position).self = s := by
  unfold render
  simp [HudElements.test, h]

/-- An instance: no element enabled, position (10, 30) on a surface 1080
high. -/
theorem render_clear_witness :
    (stateWith ∅ (oneCounter DxvkStatCounter.PipeCompilerBusy 1)).m_elements = ∅
      ∧ (render (stateWith ∅ (oneCounter DxvkStatCounter.PipeCompilerBusy 1)) 5 1080
          (⟨10, 30⟩ : HudPos Int)).calls = []
      ∧ (render (stateWith ∅ (oneCounter DxvkStatCounter.PipeCompilerBusy 1)) 5 1080
          (⟨10, 30⟩ : HudPos Int)).position = ⟨10, 30⟩ :=
  ⟨rfl,
    (render_clear (stateWith ∅ (oneCounter DxvkStatCounter.PipeCompilerBusy 1)) 5 1080
      (⟨10, 30⟩ : HudPos Int) rfl).1,
    (render_clear (stateWith ∅ (oneCounter DxvkStatCounter.PipeCompilerBusy 1)) 5 1080
      (⟨10, 30⟩ : HudPos Int) rfl).2.1⟩

/-! ## Runs of frames -/

section Runs

variable {F : Type} [Add F] [Sub F] [NatCast F]

theorem ne_empty_of_mem {e : HudElements} {x : HudElement} (h : x ∈ e) : e ≠ ∅ :=
  Finset.ne_empty_of_mem h

theorem render_self (s : HudStats) (now : Int) (surfaceHeight : Nat) (position : HudPos F) :
    (render s now surfaceHeight position).self
      = if HudElement.CompilerActivity ∈ s.m_elements
            ∧ s.m_prevCounters DxvkStatCounter.PipeCompilerBusy ≠ 0
            ∧ s.m_diffCounters DxvkStatCounter.PipeCompilerBusy ≠ 0 then
          { s with m_compilerShowTime := now }
        else s := by
  unfold render
  dsimp only
  by_cases hca : HudElement.CompilerActivity ∈ s.m_elements
  · rw [test_eq_true hca]
    simp only [if_true, printCompilerActivity_self, hca, true_and]
  · simp [HudElements.test, hca]

theorem render_calls_compiler (s : HudStats) (now : Int) (surfaceHeight : Nat)
    (position : HudPos F) (hca : HudElement.CompilerActivity ∈ s.m_elements)
    (hv : visibleSpec s now) :
    compilerLine ⟨(render s now surfaceHeight position).position.x,
        (surfaceHeight : F) - ((20 : Nat) : F)⟩
      ∈ (render s now surfaceHeight position).calls := by
  unfold render
  dsimp only
  rw [test_eq_true hca]
  simp only [if_true, printCompilerActivity_calls, if_pos hv]
  simp

theorem frame_elements (s : HudStats) (f : Frame F) :
    (frame s f).self.m_elements = s.m_elements := by
  unfold frame atRender
  rw [render_self]
  split
  · exact update_elements s _ _
  · exact update_elements s _ _

theorem frame_showTime (s : HudStats) (f : Frame F) :
    (frame s f).self.m_compilerShowTime
      = if HudElement.CompilerActivity ∈ s.m_elements
            ∧ (atRender s f).m_prevCounters DxvkStatCounter.PipeCompilerBusy ≠ 0
            ∧ (atRender s f).m_diffCounters DxvkStatCounter.PipeCompilerBusy ≠ 0 then
          f.renderTime
        else s.m_compilerShowTime := by
  unfold frame
  rw [render_self]
  have he : (atRender s f).m_elements = s.m_elements := update_elements s _ _
  have ht : (atRender s f).m_compilerShowTime = s.m_compilerShowTime := update_showTime s _ _
  rw [he]
  split
  · rfl
  · exact ht

theorem frame_showTime_idle (s : HudStats) (f : Frame F)
    (h : f.counters DxvkStatCounter.PipeCompilerBusy = 0) :
    (frame s f).self.m_compilerShowTime = s.m_compilerShowTime := by
  rw [frame_showTime]
  split
  · next hc =>
    have hp : (atRender s f).m_prevCounters = f.counters :=
      update_prev s _ _ (ne_empty_of_mem hc.1)
    rw [hp] at hc
    exact absurd h hc.2.1
  · rfl

theorem frames_append (s : HudStats) (fs gs : List (Frame F)) :
    frames s (fs ++ gs) = frames (frames s fs) gs := by
  induction fs generalizing s with
  | nil => rfl
  | cons f fs ih => exact ih _

theorem frames_elements (s : HudStats) (fs : List (Frame F)) :
    (frames s fs).m_elements = s.m_elements := by
  induction fs generalizing s with
  | nil => rfl
  | cons f fs ih => exact (ih _).trans (frame_elements s f)

theorem frames_showTime_le (s : HudStats) (fs : List (Frame F)) (t : Int)
    (h0 : s.m_compilerShowTime ≤ t) (h : ∀ g ∈ fs, g.renderTime ≤ t) :
    (frames s fs).m_compilerShowTime ≤ t := by
  induction fs generalizing s with
  | nil => exact h0
  | cons f fs ih =>
    apply ih _ _ (fun g hg => h g (List.mem_cons_of_mem f hg))
    rw [frame_showTime]
    split
    · exact h f (List.mem_cons_self f fs)
    · exact h0

theorem frames_showTime_ge (s : HudStats) (fs : List (Frame F)) (t : Int)
    (h0 : t ≤ s.m_compilerShowTime) (h : ∀ g ∈ fs, t ≤ g.renderTime) :
    t ≤ (frames s fs).m_compilerShowTime := by
  induction fs generalizing s with
  | nil => exact h0
  | cons f fs ih =>
    apply ih _ _ (fun g hg => h g (List.mem_cons_of_mem f hg))
    rw [frame_showTime]
    split
    · exact h f (List.mem_cons_self f fs)
    · exact h0

theorem frames_showTime_idle (s : HudStats) (fs : List (Frame F))
    (h : ∀ g ∈ fs, g.counters DxvkStatCounter.PipeCompilerBusy = 0) :
    (frames s fs).m_compilerShowTime = s.m_compilerShowTime := by
  induction fs generalizing s with
  | nil => rfl
  | cons f fs ih =>
    exact (ih _ (fun g hg => h g (List.mem_cons_of_mem f hg))).trans
      (frame_showTime_idle s f (h f (List.mem_cons_self f fs)))

end Runs

/-! ## The visibility window of the compiler-activity indicator -/

/-- C6, as stated, fails: the overlay sees the flag rise at the epoch, sees it
still set two seconds later and cleared 16 milliseconds after that; the last
render draws nothing, although the flag was set at a render 16 milliseconds
before. -/
theorem compiler_hidden_right_after_busy :
    HudElement.CompilerActivity ∈ compilerOverlay.m_elements
      ∧ (busyFrame 1 2000000000).counters DxvkStatCounter.PipeCompilerBusy ≠ 0
      ∧ (busyFrame 1 2000000000).renderTime ≤ (busyFrame 0 2016000000).renderTime
      ∧ (busyFrame 0 2016000000).renderTime - (busyFrame 1 2000000000).renderTime
        < 1000000000
      ∧ (frame (frames compilerOverlay [busyFrame 1 0, busyFrame 1 2000000000])
          (busyFrame 0 2016000000)).calls = [] := by
  refine ⟨by decide, by decide, by decide, by decide, by decide⟩

/-- C6, as the code has it: in a run of frames with the compiler-activity
element enabled, the render of a frame draws `"Compiling shaders..."` at the
bottom anchor when the busy flag is not zero at that render, or when at some
earlier render, less than 1000 ms before, the flag and its diff were both not
zero (the flag had changed since the frame before) and no render since has
read the clock before that one. -/
theorem compiler_visible_in_window {F : Type} [Add F] [Sub F] [NatCast F] (s : HudStats)
    (fs : List (Frame F)) (f : Frame F)
    (hca : HudElement.CompilerActivity ∈ s.m_elements)
    (h : f.counters DxvkStatCounter.PipeCompilerBusy ≠ 0
      ∨ ∃ pre fr mid, fs = pre ++ fr :: mid
        ∧ (atRender (frames s pre) fr).m_prevCounters DxvkStatCounter.PipeCompilerBusy ≠ 0
        ∧ (atRender (frames s pre) fr).m_diffCounters DxvkStatCounter.PipeCompilerBusy ≠ 0
        ∧ (∀ g ∈ mid, fr.renderTime ≤ g.renderTime)
        ∧ f.renderTime - fr.renderTime < 1000000000) :
    compilerLine ⟨(frame (frames s fs) f).position.x,
        (f.surfaceHeight : F) - ((20 : Nat) : F)⟩
      ∈ (frame (frames s fs) f).calls := by
  have hst : HudElement.CompilerActivity ∈ (frames s fs).m_elements := by
    rw [frames_elements]; exact hca
  have hsr : HudElement.CompilerActivity ∈ (atRender (frames s fs) f).m_elements := by
    unfold atRender; rw [update_elements]; exact hst
  have hprev : (atRender (frames s fs) f).m_prevCounters = f.counters :=
    update_prev _ _ _ (ne_empty_of_mem hst)
  have hshow : (atRender (frames s fs) f).m_compilerShowTime
      = (frames s fs).m_compilerShowTime := update_showTime _ _ _
  unfold frame
  apply render_calls_compiler _ _ _ _ hsr
  unfold visibleSpec currentlyBusySpec
  rcases h with hb | ⟨pre, fr, mid, hfs, hp, hd, hmid, hlt⟩
  · left
    rw [hprev]
    exact hb
  · right
    have hpre : HudElement.CompilerActivity ∈ (frames s pre).m_elements := by
      rw [frames_elements]; exact hca
    have hfr : (frame (frames s pre) fr).self.m_compilerShowTime = fr.renderTime := by
      rw [frame_showTime, if_pos ⟨hpre, hp, hd⟩]
    have hge : fr.renderTime ≤ (frames s fs).m_compilerShowTime := by
      rw [hfs, frames_append]
      exact frames_showTime_ge _ mid _ (le_of_eq hfr.symm) hmid
    apply millis_lt_of_lt
    unfold lastShownTimeSpec
    split
    · omega
    · rw [hshow]
      omega

/-- An instance: the flag rises at the epoch and is cleared 16 ms later; the
line is still drawn 999 ms after the epoch. -/
theorem compiler_visible_in_window_witness :
    HudElement.CompilerActivity ∈ compilerOverlay.m_elements
      ∧ compilerLine (⟨0, 1060⟩ : HudPos Int)
        ∈ (frame (frames compilerOverlay [busyFrame 1 0, busyFrame 0 16000000])
            (busyFrame 0 999000000)).calls :=
  ⟨by decide,
    compiler_visible_in_window compilerOverlay [busyFrame 1 0, busyFrame 0 16000000]
      (busyFrame 0 999000000) (by decide)
      (Or.inr ⟨[], busyFrame 1 0, [busyFrame 0 16000000], rfl, by decide, by decide,
        by decide, by decide⟩)⟩

/-- C7: an overlay is constructed with the compiler-activity element enabled
and runs frames under a clock that has not gone back before a frame whose busy
flag is not zero; the flag is zero at every frame since.  Then at a render
more than 1000 ms after that busy render `printCompilerActivity` draws
nothing, wherever it is asked to draw. -/
theorem compiler_hidden_after_window {F : Type} [Add F] [Sub F] [NatCast F]
    (decl : HudStats) (elements : HudElements) (t0 : Int)
    (pre : List (Frame F)) (busy : Frame F) (mid : List (Frame F)) (f : Frame F)
    (hca : HudElement.CompilerActivity ∈ elements)
    (hclock0 : t0 ≤ busy.renderTime)
    (hclock : ∀ g ∈ pre, g.renderTime ≤ busy.renderTime)
    (_hbusy : busy.counters DxvkStatCounter.PipeCompilerBusy ≠ 0)
    (hmid : ∀ g ∈ mid, g.counters DxvkStatCounter.PipeCompilerBusy = 0)
    (hlast : f.counters DxvkStatCounter.PipeCompilerBusy = 0)
    (hlate : busy.renderTime + 1000000000 < f.renderTime) :
    ∀ position : HudPos F,
      (printCompilerActivity
        (atRender (frames (HudStats.HudStats decl elements t0) (pre ++ busy :: mid)) f)
        f.renderTime position).calls = [] := by
  intro position
  have hfil : HudElement.CompilerActivity
      ∈ (HudStats.HudStats decl elements t0).m_elements := by
    simp [HudStats.HudStats, filterElements, hca]
  have hst : HudElement.CompilerActivity
      ∈ (frames (HudStats.HudStats decl elements t0) (pre ++ busy :: mid)).m_elements := by
    rw [frames_elements]; exact hfil
  have hprev : (atRender (frames (HudStats.HudStats decl elements t0) (pre ++ busy :: mid))
      f).m_prevCounters = f.counters := update_prev _ _ _ (ne_empty_of_mem hst)
  have hshow : (atRender (frames (HudStats.HudStats decl elements t0) (pre ++ busy :: mid))
      f).m_compilerShowTime
      = (frames (HudStats.HudStats decl elements t0) (pre ++ busy :: mid)).m_compilerShowTime :=
    update_showTime _ _ _
  have hsplit : pre ++ busy :: mid = (pre ++ [busy]) ++ mid := by simp
  have hle : (frames (HudStats.HudStats decl elements t0)
      (pre ++ busy :: mid)).m_compilerShowTime ≤ busy.renderTime := by
    rw [hsplit, frames_append, frames_showTime_idle _ mid hmid]
    apply frames_showTime_le _ _ _ hclock0
    intro g hg
    rcases List.mem_append.mp hg with hg | hg
    · exact hclock g hg
    · rw [List.mem_singleton.mp hg]
  rw [printCompilerActivity_calls, if_neg]
  rw [visibleSpec_idle _ _ (by rw [hprev]; exact hlast), hshow]
  exact millis_ge_of_ge (by omega)

/-- An instance: the flag is set at 16 ms only; the render at 1017 ms draws
nothing. -/
theorem compiler_hidden_after_window_witness :
    HudElement.CompilerActivity ∈ ({HudElement.CompilerActivity} : HudElements)
      ∧ (busyFrame 1 16000000).counters DxvkStatCounter.PipeCompilerBusy ≠ 0
      ∧ (busyFrame 1 16000000).renderTime + 1000000000 < (busyFrame 0 1017000000).renderTime
      ∧ (printCompilerActivity
          (atRender (frames (HudStats.HudStats (stateWith ∅ zeroCounters)
            {HudElement.CompilerActivity} 0)
            ([busyFrame 0 0] ++ busyFrame 1 16000000 :: [busyFrame 0 32000000]))
            (busyFrame 0 1017000000))
          (busyFrame 0 1017000000).renderTime (⟨0, 1060⟩ : HudPos Int)).calls = [] :=
  ⟨by decide, by decide, by decide,
    compiler_hidden_after_window (stateWith ∅ zeroCounters) {HudElement.CompilerActivity} 0
      [busyFrame 0 0] (busyFrame 1 16000000) [busyFrame 0 32000000] (busyFrame 0 1017000000)
      (by decide) (by decide) (by decide) (by decide) (by decide) (by decide) (by decide)
      ⟨0, 1060⟩⟩

/-- C8: with the compiler-activity element enabled, a frame whose busy flag is
zero followed by a frame whose busy flag is not zero leaves
`m_compilerShowTime` equal to the clock reading of the second render; and at
the render of a next frame whose flag is zero again the line is drawn exactly
when less than 1000 whole milliseconds have passed since that reading. -/
theorem rising_edge_restarts_window {F : Type} [Add F] [Sub F] [NatCast F] (s : HudStats)
    (f1 f2 f3 : Frame F)
    (hca : HudElement.CompilerActivity ∈ s.m_elements)
    (hidle : f1.counters DxvkStatCounter.PipeCompilerBusy = 0)
    (hbusy : f2.counters DxvkStatCounter.PipeCompilerBusy ≠ 0)
    (hfit : f2.counters DxvkStatCounter.PipeCompilerBusy < two64)
    (hnext : f3.counters DxvkStatCounter.PipeCompilerBusy = 0) :
    (frames s [f1, f2]).m_compilerShowTime = f2.renderTime
      ∧ ∀ position : HudPos F,
        (compilerLine position
            ∈ (printCompilerActivity (atRender (frames s [f1, f2]) f3) f3.renderTime
                position).calls
          ↔ duration_cast_milliseconds (f3.renderTime - f2.renderTime) < 1000) := by
  have h1e : HudElement.CompilerActivity ∈ (frame s f1).self.m_elements := by
    rw [frame_elements]; exact hca
  have h1p : (frame s f1).self.m_prevCounters = f1.counters := by
    unfold frame
    rw [render_self]
    split
    · exact update_prev s _ _ (ne_empty_of_mem hca)
    · exact update_prev s _ _ (ne_empty_of_mem hca)
  have h2p : (atRender (frame s f1).self f2).m_prevCounters = f2.counters :=
    update_prev _ _ _ (ne_empty_of_mem h1e)
  have h2d : (atRender (frame s f1).self f2).m_diffCounters
      = f2.counters.diff (frame s f1).self.m_prevCounters :=
    update_diff _ _ _ (ne_empty_of_mem h1e)
  have hshow : (frames s [f1, f2]).m_compilerShowTime = f2.renderTime := by
    simp only [frames]
    rw [frame_showTime, if_pos]
    refine ⟨h1e, ?_, ?_⟩
    · rw [h2p]; exact hbusy
    · rw [h2d, h1p]
      show sub64 (f2.counters DxvkStatCounter.PipeCompilerBusy)
        (f1.counters DxvkStatCounter.PipeCompilerBusy) ≠ 0
      rw [hidle, sub64_of_le (Nat.zero_le _) hfit]
      exact hbusy
  refine ⟨hshow, fun position => ?_⟩
  have h3e : HudElement.CompilerActivity ∈ (frames s [f1, f2]).m_elements := by
    rw [frames_elements]; exact hca
  have h3p : (atRender (frames s [f1, f2]) f3).m_prevCounters = f3.counters :=
    update_prev _ _ _ (ne_empty_of_mem h3e)
  have h3t : (atRender (frames s [f1, f2]) f3).m_compilerShowTime = f2.renderTime :=
    (update_showTime _ _ _).trans hshow
  have hv := visibleSpec_idle (atRender (frames s [f1, f2]) f3) f3.renderTime
    (by rw [h3p]; exact hnext)
  rw [h3t] at hv
  rw [printCompilerActivity_calls]
  constructor
  · intro hm
    by_contra hn
    rw [if_neg (fun hvis => hn (hv.mp hvis))] at hm
    simp at hm
  · intro hlt
    rw [if_pos (hv.mpr hlt)]
    simp

/-- An instance: idle at 5000 ms, busy at 5016 ms; the show time becomes
5016 ms. -/
theorem rising_edge_restarts_window_witness :
    HudElement.CompilerActivity ∈ compilerOverlay.m_elements
      ∧ (busyFrame 0 5000000000).counters DxvkStatCounter.PipeCompilerBusy = 0
      ∧ (busyFrame 1 5016000000).counters DxvkStatCounter.PipeCompilerBusy ≠ 0
      ∧ (frames compilerOverlay [busyFrame 0 5000000000,
          busyFrame 1 5016000000]).m_compilerShowTime = 5016000000 :=
  ⟨by decide, by decide, by decide,
    (rising_edge_restarts_window compilerOverlay (busyFrame 0 5000000000)
      (busyFrame 1 5016000000) (busyFrame 0 5032000000)
      (by decide) (by decide) (by decide) (by decide) (by decide)).1⟩

/-! ## The layout of `render` -/

section Layout

variable {F : Type} [Add F] [Sub F] [NatCast F]

theorem render_eq_stack (s : HudStats) (now : Int) (surfaceHeight : Nat) (position : HudPos F) :
    (render s now surfaceHeight position).position
        = (stackBlocks s (enabledStack s.m_elements) position).position
      ∧ (render s now surfaceHeight position).calls
        = (stackBlocks s (enabledStack s.m_elements) position).calls
          ++ (if HudElement.CompilerActivity ∈ s.m_elements then
                (printCompilerActivity s now
                  ⟨position.x, (surfaceHeight : F) - ((20 : Nat) : F)⟩).calls
              else []) := by
  unfold render enabledStack stackOrder
  by_cases h1 : HudElement.StatSubmissions ∈ s.m_elements <;>
    by_cases h2 : HudElement.StatDrawCalls ∈ s.m_elements <;>
    by_cases h3 : HudElement.StatPipelines ∈ s.m_elements <;>
    by_cases h4 : HudElement.StatMemory ∈ s.m_elements <;>
    by_cases h5 : HudElement.StatGpuLoad ∈ s.m_elements <;>
    by_cases h6 : HudElement.CompilerActivity ∈ s.m_elements <;>
    simp [HudElements.test, h1, h2, h3, h4, h5, h6, stackBlocks, blockOf,
      printSubmissionStats, printDrawCallStats, printPipelineStats, printMemoryStats,
      printGpuLoad]

end Layout

theorem stackBlocks_position {F : Type} [AddMonoidWithOne F] (s : HudStats)
    (l : List HudElement) (position : HudPos F) :
    (stackBlocks s l position).position
      = ⟨position.x, position.y + (((l.map blockHeightSpec).sum : Nat) : F)⟩ := by
  induction l generalizing position with
  | nil => simp [stackBlocks]
  | cons e es ih =>
    cases e <;>
      simp [stackBlocks, blockOf, ih, blockHeightSpec, printSubmissionStats,
        printDrawCallStats, printPipelineStats, printMemoryStats, printGpuLoad, add_assoc]

theorem enabledStack_insert_compiler (e : HudElements) :
    enabledStack (insert HudElement.CompilerActivity e) = enabledStack e := by
  simp [enabledStack, stackOrder, List.filter]

theorem enabledStack_erase_compiler (e : HudElements) :
    enabledStack (e.erase HudElement.CompilerActivity) = enabledStack e := by
  simp [enabledStack, stackOrder, List.filter]

/-- In a coordinate type with exact addition, `render` returns
`(x, y + H)` for every element set and every input position `(x, y)`, where
`H` is the sum of the heights of the enabled stacked blocks (submissions 24,
draw calls 64, pipelines 44, memory 44, GPU load 24); the compiler-activity
element adds nothing to `H`, enabled or not, and the result does not depend on
the clock reading that decides whether its line is visible. -/
theorem render_position_exact {F : Type} [AddMonoidWithOne F] [Sub F] (s : HudStats) (now : Int)
    (surfaceHeight : Nat) (position : HudPos F) :
    (render s now surfaceHeight position).position
        = ⟨position.x, position.y + ((stackHeightSpec s.m_elements : Nat) : F)⟩
      ∧ stackHeightSpec s.m_elements
        = (if HudElement.StatSubmissions ∈ s.m_elements then 24 else 0)
          + (if HudElement.StatDrawCalls ∈ s.m_elements then 64 else 0)
          + (if HudElement.StatPipelines ∈ s.m_elements then 44 else 0)
          + (if HudElement.StatMemory ∈ s.m_elements then 44 else 0)
          + (if HudElement.StatGpuLoad ∈ s.m_elements then 24 else 0)
      ∧ stackHeightSpec (insert HudElement.CompilerActivity s.m_elements)
        = stackHeightSpec s.m_elements
      ∧ stackHeightSpec (s.m_elements.erase HudElement.CompilerActivity)
        = stackHeightSpec s.m_elements := by
  refine ⟨?_, ?_, ?_, ?_⟩
  · rw [(render_eq_stack s now surfaceHeight position).1, stackBlocks_position]
    rfl
  · unfold stackHeightSpec enabledStack stackOrder
    by_cases h1 : HudElement.StatSubmissions ∈ s.m_elements <;>
      by_cases h2 : HudElement.StatDrawCalls ∈ s.m_elements <;>
      by_cases h3 : HudElement.StatPipelines ∈ s.m_elements <;>
      by_cases h4 : HudElement.StatMemory ∈ s.m_elements <;>
      by_cases h5 : HudElement.StatGpuLoad ∈ s.m_elements <;>
      simp [h1, h2, h3, h4, h5, blockHeightSpec]
  · unfold stackHeightSpec
    rw [enabledStack_insert_compiler]
  · unfold stackHeightSpec
    rw [enabledStack_erase_compiler]

/-- C12: for every element set, the calls of `drawText` that `render` makes
are the lines of the enabled stacked blocks in the order submissions, draw
calls, pipeline stats, memory stats, GPU load, each block started where the
one before it ended, followed by the compiler-activity line when that element
is enabled and visible; that line is drawn at `(x, surfaceHeight - 20)` with
`x` the input abscissa, whatever the stack above it. -/
theorem render_calls_order {F : Type} [Add F] [Sub F] [NatCast F] (s : HudStats) (now : Int)
    (surfaceHeight : Nat) (position : HudPos F) :
    (render s now surfaceHeight position).calls
        = (stackBlocks s (enabledStack s.m_elements) position).calls
          ++ (if HudElement.CompilerActivity ∈ s.m_elements ∧ visibleSpec s now then
                [compilerLine ⟨position.x, (surfaceHeight : F) - ((20 : Nat) : F)⟩]
              else [])
      ∧ enabledStack s.m_elements
        = stackOrder.filter (fun x => decide (x ∈ s.m_elements))
      ∧ stackOrder = [HudElement.StatSubmissions, HudElement.StatDrawCalls,
          HudElement.StatPipelines, HudElement.StatMemory, HudElement.StatGpuLoad] := by
  refine ⟨?_, rfl, rfl⟩
  rw [(render_eq_stack s now surfaceHeight position).2, printCompilerActivity_calls]
  by_cases hca : HudElement.CompilerActivity ∈ s.m_elements <;>
    by_cases hv : visibleSpec s now <;> simp [hca, hv]

/-! ## Memory statistics -/

/-- C13: `printMemoryStats` shows `MemoryAllocated / 1048576` and
`MemoryUsed / 1048576`, with truncating division, of the stored snapshot; the
diff snapshot has no part in it; and 5242880 bytes used are shown as 5. -/
theorem printMemoryStats_values {F : Type} [Add F] [NatCast F] (s : HudStats)
    (d : DxvkStatCounters) (position : HudPos F) :
    (printMemoryStats s position).calls.map DrawText.text
        = ["Memory allocated: "
            ++ toString (s.m_prevCounters DxvkStatCounter.MemoryAllocated / 1048576) ++ " MB",
          "Memory used:      "
            ++ toString (s.m_prevCounters DxvkStatCounter.MemoryUsed / 1048576) ++ " MB"]
      ∧ printMemoryStats { s with m_diffCounters := d } position
        = printMemoryStats s position
      ∧ (printMemoryStats
          (stateWith {HudElement.StatMemory} (oneCounter DxvkStatCounter.MemoryUsed 5242880))
          position).calls.map DrawText.text
        = ["Memory allocated: 0 MB", "Memory used:      5 MB"] := by
  refine ⟨rfl, rfl, ?_⟩
  simp only [printMemoryStats, List.map]
  decide

/-! ## The element filter -/

/-- C14: the overlay keeps exactly the configured elements that are among the
six that `filterElements` names; the constructor is a total function; and an
overlay configured with unrecognised identifiers only is the overlay
configured with the empty set: `update` returns it unchanged and `render`
draws nothing and returns the input position. -/
theorem constructor_filters {F : Type} [Add F] [Sub F] [NatCast F] (decl : HudStats)
    (e : HudElements) (ids : Finset Nat) (t0 : Int) (c : DxvkStatCounters) (now : Int)
    (surfaceHeight : Nat) (position : HudPos F) :
    (HudStats.HudStats decl e t0).m_elements
        = e ∩ {HudElement.StatDrawCalls, HudElement.StatSubmissions,
            HudElement.StatPipelines, HudElement.StatMemory, HudElement.StatGpuLoad,
            HudElement.CompilerActivity}
      ∧ (∀ id, HudElement.Other id ∉ (HudStats.HudStats decl e t0).m_elements)
      ∧ HudStats.HudStats decl (ids.image HudElement.Other) t0 = HudStats.HudStats decl ∅ t0
      ∧ (HudStats.HudStats decl (ids.image HudElement.Other) t0).m_elements = ∅
      ∧ update (HudStats.HudStats decl (ids.image HudElement.Other) t0) c now
        = HudStats.HudStats decl (ids.image HudElement.Other) t0
      ∧ (render (HudStats.HudStats decl (ids.image HudElement.Other) t0) now surfaceHeight
          position).calls = []
      ∧ (render (HudStats.HudStats decl (ids.image HudElement.Other) t0) now surfaceHeight
          position).position = position := by
  have hempty : filterElements (ids.image HudElement.Other) = ∅ := by
    ext x
    simp only [filterElements, Finset.mem_inter, Finset.mem_image, Finset.mem_insert,
      Finset.mem_singleton, Finset.not_mem_empty, iff_false, not_and]
    rintro ⟨id, _, rfl⟩
    simp
  have hel : (HudStats.HudStats decl (ids.image HudElement.Other) t0).m_elements = ∅ := hempty
  refine ⟨rfl, ?_, ?_, hel, ?_, ?_, ?_⟩
  · intro id
    simp [HudStats.HudStats, filterElements]
  · simp [HudStats.HudStats, hempty, filterElements]
  · unfold update
    simp [HudElements.isClear, hel]
  · unfold render
    simp [HudElements.test, hel]
  · unfold render
    simp [HudElements.test, hel]

/-! ## The idle ticks of the GPU load estimator -/

theorem update_gpuLoad_eq (s : HudStats) (c : DxvkStatCounters) (now : Int)
    (hgpu : HudElement.StatGpuLoad ∈ s.m_elements) :
    update s c now
      = updateGpuLoad { s with
          m_diffCounters := c.diff s.m_prevCounters
          m_prevCounters := c } now := by
  unfold update
  dsimp only
  rw [isClear_eq_false (ne_empty_of_mem hgpu), test_eq_true hgpu]
  simp

/-- C15, as stated, fails: the stored snapshot holds 100 idle ticks, the
snapshot fetched by the call holds 400000, and the call passes the gate; the
idle ticks it uses and stores are the 400000 of the fetched snapshot, not the
100 held before the call. -/
theorem gpuLoad_idle_not_lagged :
    HudElement.StatGpuLoad
        ∈ (stateWith {HudElement.StatGpuLoad}
            (oneCounter DxvkStatCounter.GpuIdleTicks 100)).m_elements
      ∧ 500000 ≤ elapsedMicros
          (stateWith {HudElement.StatGpuLoad} (oneCounter DxvkStatCounter.GpuIdleTicks 100))
          500000000
      ∧ (stateWith {HudElement.StatGpuLoad}
          (oneCounter DxvkStatCounter.GpuIdleTicks 100)).m_prevCounters
          DxvkStatCounter.GpuIdleTicks = 100
      ∧ (update
          (stateWith {HudElement.StatGpuLoad} (oneCounter DxvkStatCounter.GpuIdleTicks 100))
          (oneCounter DxvkStatCounter.GpuIdleTicks 400000) 500000000).m_prevGpuIdleTicks
        = 400000
      ∧ (update
          (stateWith {HudElement.StatGpuLoad} (oneCounter DxvkStatCounter.GpuIdleTicks 100))
          (oneCounter DxvkStatCounter.GpuIdleTicks 400000) 500000000).m_diffGpuIdleTicks
        = 400000
      ∧ (update
          (stateWith {HudElement.StatGpuLoad} (oneCounter DxvkStatCounter.GpuIdleTicks 100))
          (oneCounter DxvkStatCounter.GpuIdleTicks 400000) 500000000).m_gpuLoadString
        = "GPU: 20%" := by
  refine ⟨by decide, by decide, by decide, by decide, by decide, by decide⟩

/-- C15, as the code has it: a call of `update` with the GPU-load element
enabled that passes the gate computes the idle delta from, and then stores,
the `GpuIdleTicks` of the snapshot fetched in this call, the one its diff was
computed from. -/
theorem gpuLoad_idle_from_fetched (s : HudStats) (c : DxvkStatCounters) (now : Int)
    (hgpu : HudElement.StatGpuLoad ∈ s.m_elements)
    (hgate : 500000 ≤ elapsedMicros s now) :
    (update s c now).m_diffGpuIdleTicks
        = sub64 (c DxvkStatCounter.GpuIdleTicks) s.m_prevGpuIdleTicks
      ∧ (update s c now).m_prevGpuIdleTicks = c DxvkStatCounter.GpuIdleTicks
      ∧ (update s c now).m_prevCounters = c := by
  rw [update_gpuLoad_eq s c now hgpu]
  unfold updateGpuLoad
  dsimp only
  rw [if_pos (by exact hgate)]
  exact ⟨rfl, rfl, rfl⟩

/-- An instance: 100 idle ticks held, 400000 fetched, half a second after the
last sample. -/
theorem gpuLoad_idle_from_fetched_witness :
    HudElement.StatGpuLoad
        ∈ (stateWith {HudElement.StatGpuLoad}
            (oneCounter DxvkStatCounter.GpuIdleTicks 100)).m_elements
      ∧ 500000 ≤ elapsedMicros
          (stateWith {HudElement.StatGpuLoad} (oneCounter DxvkStatCounter.GpuIdleTicks 100))
          500000000
      ∧ (update
          (stateWith {HudElement.StatGpuLoad} (oneCounter DxvkStatCounter.GpuIdleTicks 100))
          (oneCounter DxvkStatCounter.GpuIdleTicks 400000) 500000000).m_prevGpuIdleTicks
        = oneCounter DxvkStatCounter.GpuIdleTicks 400000 DxvkStatCounter.GpuIdleTicks :=
  ⟨by decide, by decide,
    (gpuLoad_idle_from_fetched
      (stateWith {HudElement.StatGpuLoad} (oneCounter DxvkStatCounter.GpuIdleTicks 100))
      (oneCounter DxvkStatCounter.GpuIdleTicks 400000) 500000000
      (by decide) (by decide)).2.1⟩

/-- C17: when the filtered element set is not empty and does not hold the
GPU-load element, `update` replaces the previous and the diff snapshot and
nothing else, whatever the clock reads: the sample time, the captured idle
ticks and the cached load string keep their values. -/
theorem update_without_gpuLoad (s : HudStats) (c : DxvkStatCounters) (now : Int)
    (hne : s.m_elements ≠ ∅) (hno : HudElement.StatGpuLoad ∉ s.m_elements) :
    update s c now
        = { s with
            m_diffCounters := c.diff s.m_prevCounters
            m_prevCounters := c }
      ∧ (update s c now).m_prevCounters = c
      ∧ (update s c now).m_diffCounters = c.diff s.m_prevCounters
      ∧ (update s c now).m_gpuLoadUpdateTime = s.m_gpuLoadUpdateTime
      ∧ (update s c now).m_prevGpuIdleTicks = s.m_prevGpuIdleTicks
      ∧ (update s c now).m_gpuLoadString = s.m_gpuLoadString := by
  have h : update s c now
      = { s with
          m_diffCounters := c.diff s.m_prevCounters
          m_prevCounters := c } := by
    unfold update
    dsimp only
    rw [isClear_eq_false hne]
    simp [HudElements.test, hno]
  rw [h]
  exact ⟨rfl, rfl, rfl, rfl, rfl, rfl⟩

/-- An instance: the memory element alone, ten seconds after the epoch. -/
theorem update_without_gpuLoad_witness :
    (stateWith {HudElement.StatMemory} zeroCounters).m_elements ≠ ∅
      ∧ HudElement.StatGpuLoad ∉ (stateWith {HudElement.StatMemory} zeroCounters).m_elements
      ∧ (update (stateWith {HudElement.StatMemory} zeroCounters)
          (oneCounter DxvkStatCounter.GpuIdleTicks 7) 10000000000).m_gpuLoadString = "GPU: "
      ∧ (update (stateWith {HudElement.StatMemory} zeroCounters)
          (oneCounter DxvkStatCounter.GpuIdleTicks 7) 10000000000).m_gpuLoadUpdateTime = 0 :=
  ⟨by decide, by decide,
    (update_without_gpuLoad (stateWith {HudElement.StatMemory} zeroCounters)
      (oneCounter DxvkStatCounter.GpuIdleTicks 7) 10000000000 (by decide)
      (by decide)).2.2.2.2.2,
    (update_without_gpuLoad (stateWith {HudElement.StatMemory} zeroCounters)
      (oneCounter DxvkStatCounter.GpuIdleTicks 7) 10000000000 (by decide)
      (by decide)).2.2.2.1⟩

/-- C20: when at least 500000 microseconds have elapsed and
`100 * elapsedMicros` fits in 64 bits, the string cached by `updateGpuLoad`
carries the percentage the source computes; for every 64-bit idle delta,
wrapped around or not, that percentage is at most 100, is 0 when the idle
delta is at least the elapsed time, and is 100 when the idle delta is 0. -/
theorem gpuLoadPercent_range (s : HudStats) (now : Int) (idle : Nat)
    (hgate : 500000 ≤ elapsedMicros s now) (hfit : 100 * elapsedMicros s now < two64)
    (hidle : idle < two64) :
    (updateGpuLoad s now).m_gpuLoadString
        = "GPU: " ++ toString (gpuLoadPercent (elapsedMicros s now) (idleDelta s)) ++ "%"
      ∧ idleDelta s < two64
      ∧ gpuLoadPercent (elapsedMicros s now) idle ≤ 100
      ∧ (elapsedMicros s now ≤ idle → gpuLoadPercent (elapsedMicros s now) idle = 0)
      ∧ gpuLoadPercent (elapsedMicros s now) 0 = 100 := by
  have hstr : (updateGpuLoad s now).m_gpuLoadString
      = "GPU: " ++ toString (gpuLoadPercent (elapsedMicros s now) (idleDelta s)) ++ "%" := by
    unfold updateGpuLoad
    dsimp only
    change (if elapsedMicros s now ≥ 500000 then _ else s).m_gpuLoadString = _
    rw [if_pos hgate]
    rfl
  refine ⟨hstr, sub64_lt _ _, ?_, ?_, ?_⟩
  · unfold gpuLoadPercent mul64
    split
    · next hgt =>
      rw [sub64_of_le (Nat.le_of_lt hgt) (by unfold two64 at *; omega)]
      rw [Nat.mod_eq_of_lt (by unfold two64 at *; omega)]
      apply Nat.div_le_of_le_mul
      have := Nat.sub_le (elapsedMicros s now) idle
      nlinarith
    · simp
  · intro hle
    unfold gpuLoadPercent mul64
    rw [if_neg (by omega)]
    simp
  · unfold gpuLoadPercent mul64
    rw [if_pos (by omega), sub64_of_le (Nat.zero_le _) (by unfold two64 at *; omega)]
    rw [Nat.sub_zero, Nat.mod_eq_of_lt hfit]
    exact Nat.mul_div_cancel _ (by omega)

/-- An instance: half a second elapsed, and an idle delta that has wrapped
around to `2 ^ 64 - 1`. -/
theorem gpuLoadPercent_range_witness :
    500000 ≤ elapsedMicros
        { stateWith {HudElement.StatGpuLoad} zeroCounters with m_prevGpuIdleTicks := 1 }
        500000000
      ∧ idleDelta
        { stateWith {HudElement.StatGpuLoad} zeroCounters with m_prevGpuIdleTicks := 1 }
        = 18446744073709551615
      ∧ (updateGpuLoad
        { stateWith {HudElement.StatGpuLoad} zeroCounters with m_prevGpuIdleTicks := 1 }
        500000000).m_gpuLoadString = "GPU: 0%"
      ∧ gpuLoadPercent (elapsedMicros
        { stateWith {HudElement.StatGpuLoad} zeroCounters with m_prevGpuIdleTicks := 1 }
        500000000) 18446744073709551615 ≤ 100 :=
  ⟨by decide, by decide,
    (gpuLoadPercent_range
      { stateWith {HudElement.StatGpuLoad} zeroCounters with m_prevGpuIdleTicks := 1 }
      500000000 18446744073709551615 (by decide) (by decide) (by decide)).1.trans
      (by decide),
    (gpuLoadPercent_range
      { stateWith {HudElement.StatGpuLoad} zeroCounters with m_prevGpuIdleTicks := 1 }
      500000000 18446744073709551615 (by decide) (by decide) (by decide)).2.2.1⟩

/-! ## What refreshes the show time -/

section Refresh

variable {F : Type} [Add F] [Sub F] [NatCast F]

theorem frame_prev (s : HudStats) (f : Frame F) (h : s.m_elements ≠ ∅) :
    (frame s f).self.m_prevCounters = f.counters := by
  unfold frame
  rw [render_self]
  split
  · exact update_prev s _ _ h
  · exact update_prev s _ _ h

end Refresh

/-- C16, as stated, fails, both ways.  An idle frame followed by a busy frame
moves the show time from the epoch to the clock reading of the busy render;
and of two busy frames in a row the first sets the show time and the second
leaves it where it was. -/
theorem refresh_is_not_on_second_busy :
    (frames compilerOverlay [busyFrame 0 5000000000]).m_compilerShowTime = 0
      ∧ (frames compilerOverlay
          [busyFrame 0 5000000000, busyFrame 1 5016000000]).m_compilerShowTime
        = 5016000000
      ∧ (frames compilerOverlay [busyFrame 1 5000000000]).m_compilerShowTime = 5000000000
      ∧ (frames compilerOverlay
          [busyFrame 1 5000000000, busyFrame 1 5016000000]).m_compilerShowTime
        = 5000000000 := by
  refine ⟨by decide, by decide, by decide, by decide⟩

/-- C16, as the code has it: with the compiler-activity element enabled and a
0/1 busy flag, a render at which the flag is busy sets `m_compilerShowTime` to
its clock reading when the flag was idle at the frame before, and leaves it
unchanged when the flag was busy at the frame before; only a change from idle
to busy refreshes the timer. -/
theorem refresh_on_change_to_busy {F : Type} [Add F] [Sub F] [NatCast F] (s : HudStats)
    (f1 f2 : Frame F)
    (hca : HudElement.CompilerActivity ∈ s.m_elements)
    (hflag : f1.counters DxvkStatCounter.PipeCompilerBusy ≤ 1)
    (hbusy : f2.counters DxvkStatCounter.PipeCompilerBusy = 1) :
    (frames s [f1, f2]).m_compilerShowTime
      = if f1.counters DxvkStatCounter.PipeCompilerBusy = 0 then f2.renderTime
        else (frames s [f1]).m_compilerShowTime := by
  have h1e : HudElement.CompilerActivity ∈ (frame s f1).self.m_elements := by
    rw [frame_elements]; exact hca
  have h1p : (frame s f1).self.m_prevCounters = f1.counters :=
    frame_prev s f1 (ne_empty_of_mem hca)
  have h2p : (atRender (frame s f1).self f2).m_prevCounters = f2.counters :=
    update_prev _ _ _ (ne_empty_of_mem h1e)
  have h2d : (atRender (frame s f1).self f2).m_diffCounters DxvkStatCounter.PipeCompilerBusy
      = sub64 1 (f1.counters DxvkStatCounter.PipeCompilerBusy) := by
    have h := update_diff (frame s f1).self f2.counters f2.updateTime (ne_empty_of_mem h1e)
    unfold atRender
    rw [h, h1p]
    show sub64 (f2.counters DxvkStatCounter.PipeCompilerBusy) _ = _
    rw [hbusy]
  simp only [frames]
  rw [frame_showTime, h2p, h2d, hbusy]
  by_cases h0 : f1.counters DxvkStatCounter.PipeCompilerBusy = 0
  · rw [if_pos h0, h0, if_pos ⟨h1e, by decide, by decide⟩]
  · have h1 : f1.counters DxvkStatCounter.PipeCompilerBusy = 1 := by omega
    rw [if_neg h0, h1, if_neg (by
      rintro ⟨_, _, h⟩
      exact h (by decide))]

/-- An instance: two busy frames in a row after the construction; the show
time stays at the first. -/
theorem refresh_on_change_to_busy_witness :
    HudElement.CompilerActivity ∈ compilerOverlay.m_elements
      ∧ (busyFrame 1 5000000000).counters DxvkStatCounter.PipeCompilerBusy ≤ 1
      ∧ (busyFrame 1 5016000000).counters DxvkStatCounter.PipeCompilerBusy = 1
      ∧ (frames compilerOverlay
          [busyFrame 1 5000000000, busyFrame 1 5016000000]).m_compilerShowTime
        = (frames compilerOverlay [busyFrame 1 5000000000]).m_compilerShowTime :=
  ⟨by decide, by decide, by decide,
    (refresh_on_change_to_busy compilerOverlay (busyFrame 1 5000000000)
      (busyFrame 1 5016000000) (by decide) (by decide) (by decide)).trans (by decide)⟩

/-- C19: an overlay is constructed at `t0` with the compiler-activity element
enabled, and every snapshot it receives has the busy flag zero; then every
render made less than 1000 ms after `t0` draws `"Compiling shaders..."` at the
bottom anchor, since the constructor sets `m_compilerShowTime` to `t0` and no
idle frame changes it. -/
theorem compiler_shown_after_construction {F : Type} [Add F] [Sub F] [NatCast F]
    (decl : HudStats) (elements : HudElements) (t0 : Int) (fs : List (Frame F)) (f : Frame F)
    (hca : HudElement.CompilerActivity ∈ elements)
    (hidle : ∀ g ∈ fs, g.counters DxvkStatCounter.PipeCompilerBusy = 0)
    (hlast : f.counters DxvkStatCounter.PipeCompilerBusy = 0)
    (hsoon : f.renderTime - t0 < 1000000000) :
    (HudStats.HudStats decl elements t0).m_compilerShowTime = t0
      ∧ (frames (HudStats.HudStats decl elements t0) fs).m_compilerShowTime = t0
      ∧ compilerLine ⟨(frame (frames (HudStats.HudStats decl elements t0) fs) f).position.x,
          (f.surfaceHeight : F) - ((20 : Nat) : F)⟩
        ∈ (frame (frames (HudStats.HudStats decl elements t0) fs) f).calls := by
  have hfil : HudElement.CompilerActivity
      ∈ (HudStats.HudStats decl elements t0).m_elements := by
    simp [HudStats.HudStats, filterElements, hca]
  have hst : HudElement.CompilerActivity
      ∈ (frames (HudStats.HudStats decl elements t0) fs).m_elements := by
    rw [frames_elements]; exact hfil
  have hshow : (frames (HudStats.HudStats decl elements t0) fs).m_compilerShowTime = t0 :=
    frames_showTime_idle _ fs hidle
  have hsr : HudElement.CompilerActivity
      ∈ (atRender (frames (HudStats.HudStats decl elements t0) fs) f).m_elements := by
    unfold atRender; rw [update_elements]; exact hst
  have hprev : (atRender (frames (HudStats.HudStats decl elements t0) fs) f).m_prevCounters
      = f.counters := update_prev _ _ _ (ne_empty_of_mem hst)
  have hat : (atRender (frames (HudStats.HudStats decl elements t0) fs) f).m_compilerShowTime
      = t0 := (update_showTime _ _ _).trans hshow
  refine ⟨rfl, hshow, ?_⟩
  unfold frame
  apply render_calls_compiler _ _ _ _ hsr
  rw [visibleSpec_idle _ _ (by rw [hprev]; exact hlast), hat]
  exact millis_lt_of_lt hsoon

/-- An instance: constructed at the epoch, never busy; the line is drawn at
the third render, 999 ms later. -/
theorem compiler_shown_after_construction_witness :
    HudElement.CompilerActivity ∈ ({HudElement.CompilerActivity} : HudElements)
      ∧ (busyFrame 0 999000000).counters DxvkStatCounter.PipeCompilerBusy = 0
      ∧ (busyFrame 0 999000000).renderTime - 0 < 1000000000
      ∧ compilerLine (⟨0, 1060⟩ : HudPos Int)
        ∈ (frame (frames (HudStats.HudStats (stateWith ∅ zeroCounters)
            {HudElement.CompilerActivity} 0) [busyFrame 0 16000000, busyFrame 0 32000000])
            (busyFrame 0 999000000)).calls :=
  ⟨by decide, by decide, by decide,
    (compiler_shown_after_construction (stateWith ∅ zeroCounters)
      {HudElement.CompilerActivity} 0 [busyFrame 0 16000000, busyFrame 0 32000000]
      (busyFrame 0 999000000) (by decide) (by decide) (by decide) (by decide)).2.2⟩

/-! ## Blocks do not overlap -/

section Overlap

variable {F : Type} [LinearOrderedCommRing F]

theorem blockOf_bounds (s : HudStats) (e : HudElement) (position : HudPos F) :
    position.y ≤ (blockOf s e position).position.y
      ∧ (∀ d ∈ (blockOf s e position).calls,
          position.y ≤ d.pos.y ∧ d.pos.y + 16 ≤ (blockOf s e position).position.y)
      ∧ ((blockOf s e position).calls.map (fun d => d.pos.y)).Pairwise (· < ·) := by
  cases e <;>
    simp [blockOf, printSubmissionStats, printDrawCallStats, printPipelineStats,
      printMemoryStats, printGpuLoad] <;>
    (try norm_num)
  all_goals first
    | linarith
    | (constructor <;> linarith)

theorem stackBlocks_bounds (s : HudStats) (l : List HudElement) (position : HudPos F) :
    position.y ≤ (stackBlocks s l position).position.y
      ∧ (∀ d ∈ (stackBlocks s l position).calls,
          position.y ≤ d.pos.y ∧ d.pos.y + 16 ≤ (stackBlocks s l position).position.y)
      ∧ ((stackBlocks s l position).calls.map (fun d => d.pos.y)).Pairwise (· < ·) := by
  induction l generalizing position with
  | nil => simp [stackBlocks]
  | cons e es ih =>
    obtain ⟨b1, b2, b3⟩ := blockOf_bounds s e position
    obtain ⟨r1, r2, r3⟩ := ih (blockOf s e position).position
    refine ⟨le_trans b1 r1, ?_, ?_⟩
    · intro d hd
      simp only [stackBlocks, List.mem_append] at hd ⊢
      rcases hd with hd | hd
      · exact ⟨(b2 d hd).1, le_trans (b2 d hd).2 r1⟩
      · exact ⟨le_trans b1 (r2 d hd).1, (r2 d hd).2⟩
    · simp only [stackBlocks, List.map_append, List.pairwise_append]
      refine ⟨b3, r3, ?_⟩
      intro a ha b hb
      obtain ⟨d, hd, rfl⟩ := List.mem_map.mp ha
      obtain ⟨d', hd', rfl⟩ := List.mem_map.mp hb
      have h1 := (b2 d hd).2
      have h2 := (r2 d' hd').1
      show d.pos.y < d'.pos.y
      linarith

end Overlap

/-- In an ordered coordinate type with exact arithmetic, for every
element set and every input position: each stacked block draws its lines at
the offsets 0, 20 and 40 from its start, as many as it has lines; each such
offset plus the font size 16 is at most the height of the block; a block
returns its start plus its height, which is where the next block starts; and
the ordinates of the stacked lines that `render` draws are strictly
increasing. -/
theorem stack_never_overlaps_exact {F : Type} [LinearOrderedCommRing F] (s : HudStats) (now : Int)
    (surfaceHeight : Nat) (position : HudPos F) :
    (∀ e ∈ stackOrder, ∀ p : HudPos F,
        (blockOf s e p).calls.map (fun d => d.pos.y)
            = ([p.y, p.y + 20, p.y + 40] : List F).take (blockOf s e p).calls.length
          ∧ (blockOf s e p).position = ⟨p.x, p.y + ((blockHeightSpec e : Nat) : F)⟩
          ∧ ∀ d ∈ (blockOf s e p).calls,
              d.size = 16 ∧ d.pos.y + ((d.size : Nat) : F) ≤ p.y + ((blockHeightSpec e : Nat) : F))
      ∧ (∀ e ∈ stackOrder, ∀ (es : List HudElement) (p : HudPos F),
          (stackBlocks s (e :: es) p).calls
            = (blockOf s e p).calls
              ++ (stackBlocks s es ⟨p.x, p.y + ((blockHeightSpec e : Nat) : F)⟩).calls)
      ∧ (render s now surfaceHeight position).calls
        = (stackBlocks s (enabledStack s.m_elements) position).calls
          ++ (if HudElement.CompilerActivity ∈ s.m_elements then
                (printCompilerActivity s now
                  ⟨position.x, (surfaceHeight : F) - ((20 : Nat) : F)⟩).calls
              else [])
      ∧ ((stackBlocks s (enabledStack s.m_elements) position).calls.map
          (fun d => d.pos.y)).Pairwise (· < ·) := by
  refine ⟨?_, ?_, (render_eq_stack s now surfaceHeight position).2,
    (stackBlocks_bounds s _ position).2.2⟩
  · intro e he p
    simp only [stackOrder, List.mem_cons, List.mem_singleton, List.not_mem_nil, or_false] at he
    rcases he with rfl | rfl | rfl | rfl | rfl <;>
      simp [blockOf, blockHeightSpec, printSubmissionStats, printDrawCallStats,
        printPipelineStats, printMemoryStats, printGpuLoad] <;>
      (try norm_num) <;>
      first
        | linarith
        | (constructor <;> linarith)
  · intro e he es p
    simp only [stackOrder, List.mem_cons, List.mem_singleton, List.not_mem_nil, or_false] at he
    rcases he with rfl | rfl | rfl | rfl | rfl <;>
      simp [stackBlocks, blockOf, blockHeightSpec, printSubmissionStats, printDrawCallStats,
        printPipelineStats, printMemoryStats, printGpuLoad]

/-! ## The returned position in any coordinate type -/

theorem stackBlocks_position_steps {F : Type} [Add F] [NatCast F] (s : HudStats)
    (l : List HudElement) (position : HudPos F) :
    (stackBlocks s l position).position
      = ⟨position.x,
          l.foldl (fun y e => if e ∈ stackOrder then y + ((blockHeightSpec e : Nat) : F) else y)
            position.y⟩ := by
  induction l generalizing position with
  | nil => simp [stackBlocks]
  | cons e es ih =>
    cases e <;>
      simp [stackBlocks, blockOf, ih, blockHeightSpec, stackOrder, printSubmissionStats,
        printDrawCallStats, printPipelineStats, printMemoryStats, printGpuLoad]

/-! ## Instances over integer coordinates -/

/-- An instance: submissions, memory and the compiler line enabled, from
`(10, 30)`; the position returned is `(10, 30 + 24 + 44)`. -/
theorem render_position_exact_int :
    (render (stateWith {HudElement.StatSubmissions, HudElement.StatMemory,
        HudElement.CompilerActivity} zeroCounters) 0 1080 (⟨10, 30⟩ : HudPos Int)).position
      = ⟨10, 98⟩ :=
  (render_position_exact (stateWith {HudElement.StatSubmissions, HudElement.StatMemory,
      HudElement.CompilerActivity} zeroCounters) 0 1080 (⟨10, 30⟩ : HudPos Int)).1.trans
    (by decide)

/-- An instance: the five stacked blocks from `(0, 0)`; the lines are drawn
at the ordinates 0, 24, 44, 64, 88, 108, 132, 152 and 176. -/
theorem stack_never_overlaps_exact_int :
    (stackBlocks (stateWith {HudElement.StatSubmissions, HudElement.StatDrawCalls,
        HudElement.StatPipelines, HudElement.StatMemory, HudElement.StatGpuLoad} zeroCounters)
        (enabledStack {HudElement.StatSubmissions, HudElement.StatDrawCalls,
          HudElement.StatPipelines, HudElement.StatMemory, HudElement.StatGpuLoad})
        (⟨0, 0⟩ : HudPos Int)).calls.map (fun d => d.pos.y)
        = [0, 24, 44, 64, 88, 108, 132, 152, 176]
      ∧ ((stackBlocks (stateWith {HudElement.StatSubmissions, HudElement.StatDrawCalls,
        HudElement.StatPipelines, HudElement.StatMemory, HudElement.StatGpuLoad} zeroCounters)
        (enabledStack {HudElement.StatSubmissions, HudElement.StatDrawCalls,
          HudElement.StatPipelines, HudElement.StatMemory, HudElement.StatGpuLoad})
        (⟨0, 0⟩ : HudPos Int)).calls.map (fun d => d.pos.y)).Pairwise (· < ·) :=
  ⟨by decide,
    (stack_never_overlaps_exact (stateWith {HudElement.StatSubmissions, HudElement.StatDrawCalls,
      HudElement.StatPipelines, HudElement.StatMemory, HudElement.StatGpuLoad} zeroCounters)
      0 1080 (⟨0, 0⟩ : HudPos Int)).2.2.2⟩

/-! ## Positions in `float` -/

theorem excessBits_le (fuel n j : Nat) (h : n < 16777216 * 2 ^ j) : excessBits fuel n ≤ j := by
  induction fuel generalizing n j with
  | zero => simp [excessBits]
  | succ fuel ih =>
    unfold excessBits
    split
    · omega
    · next hbig =>
      cases j with
      | zero => omega
      | succ j =>
        have hhalf : n / 2 < 16777216 * 2 ^ j := by
          rw [Nat.pow_succ] at h
          omega
        have := ih (n / 2) j hhalf
        omega

theorem excessBits_pos (n : Nat) (h : ¬ n < 16777216) : 0 < excessBits n n := by
  cases n with
  | zero => omega
  | succ m =>
    unfold excessBits
    rw [if_neg h]
    omega

theorem roundMagnitude_small (a : Nat) (h : a < 16777216) :
    roundMagnitude (a * F32.unit) = a * F32.unit := by
  unfold roundMagnitude
  split
  · rfl
  · next hbig =>
    have hlt : a * F32.unit < 16777216 * 2 ^ 149 :=
      Nat.mul_lt_mul_of_pos_right h (by unfold F32.unit; positivity)
    have hk : excessBits (a * F32.unit) (a * F32.unit) ≤ 149 := excessBits_le _ _ _ hlt
    have hpos := excessBits_pos _ hbig
    have hdvd : 2 ^ excessBits (a * F32.unit) (a * F32.unit) ∣ a * F32.unit :=
      Dvd.dvd.mul_left (Nat.pow_dvd_pow 2 hk) a
    have hr : a * F32.unit % 2 ^ excessBits (a * F32.unit) (a * F32.unit) = 0 :=
      Nat.mod_eq_zero_of_dvd hdvd
    have hhalf : 0 < 2 ^ (excessBits (a * F32.unit) (a * F32.unit) - 1) := by positivity
    simp only [hr]
    rw [if_neg (by omega)]
    exact Nat.div_mul_cancel hdvd

theorem natCast_f32 (a : Nat) (h : a < 16777216) :
    ((a : Nat) : F32) = F32.fin ((a : Int) * (F32.unit : Int)) := by
  show F32.ofInt ((a : Int) * (F32.unit : Int)) = _
  have habs : ((a : Int) * (F32.unit : Int)).natAbs = a * F32.unit := by
    rw [Int.natAbs_mul, Int.natAbs_ofNat, Int.natAbs_ofNat]
  have hnn : ¬ ((a : Int) * (F32.unit : Int) < 0) := by
    have : (0 : Int) ≤ (a : Int) * (F32.unit : Int) := by positivity
    omega
  have hov : ¬ (a * F32.unit ≥ F32.overflow) := by
    have h1 : a * F32.unit < 16777216 * F32.unit :=
      Nat.mul_lt_mul_of_pos_right h (by unfold F32.unit; positivity)
    have h2 : 16777216 * F32.unit ≤ F32.overflow := by
      unfold F32.overflow F32.unit
      exact Nat.mul_le_mul_right _ (by norm_num)
    omega
  unfold F32.ofInt
  rw [habs, roundMagnitude_small a h, if_neg hov, if_neg hnn]
  push_cast
  rfl

theorem natCast_add_f32 (a b : Nat) (ha : a < 16777216) (hb : b < 16777216) :
    ((a : Nat) : F32) + ((b : Nat) : F32) = ((a + b : Nat) : F32) := by
  rw [natCast_f32 a ha, natCast_f32 b hb]
  show F32.ofInt ((a : Int) * (F32.unit : Int) + (b : Int) * (F32.unit : Int))
    = F32.ofInt (((a + b : Nat) : Int) * (F32.unit : Int))
  rw [Int.natCast_add, Int.add_mul]

theorem natCast_lt_f32 (a b : Nat) (ha : a < 16777216) (hb : b < 16777216) (h : a < b) :
    ((a : Nat) : F32) < ((b : Nat) : F32) := by
  rw [natCast_f32 a ha, natCast_f32 b hb]
  show F32.lt _ _ = true
  simp only [F32.lt, decide_eq_true_eq]
  have hu : (0 : Int) < (F32.unit : Int) := by unfold F32.unit; positivity
  have hab : (a : Int) < (b : Int) := by exact_mod_cast h
  exact Int.mul_lt_mul_of_pos_right hab hu

set_option maxRecDepth 16384

theorem blockOf_float (s : HudStats) (e : HudElement) (x : F32) (j : Nat)
    (h : j + blockHeightSpec e < 16777216) :
    (blockOf s e (⟨x, ((j : Nat) : F32)⟩ : HudPos F32)).position
        = ⟨x, ((j + blockHeightSpec e : Nat) : F32)⟩
      ∧ (blockOf s e (⟨x, ((j : Nat) : F32)⟩ : HudPos F32)).calls.map (fun d => d.pos.y)
        = (lineOffsetsSpec e).map (fun o => ((j + o : Nat) : F32)) := by
  have hj : j < 16777216 := by omega
  cases e <;>
    simp only [blockHeightSpec] at h <;>
    simp only [blockOf, blockHeightSpec, lineOffsetsSpec, printSubmissionStats,
      printDrawCallStats, printPipelineStats, printMemoryStats, printGpuLoad, List.map_cons,
      List.map_nil, Nat.add_zero] <;>
    (try rw [natCast_add_f32 j 20 hj (by omega)]) <;>
    (try rw [natCast_add_f32 j 40 hj (by omega)]) <;>
    (try rw [natCast_add_f32 j 24 hj (by omega)]) <;>
    (try rw [natCast_add_f32 j 44 hj (by omega)]) <;>
    (try rw [natCast_add_f32 j 64 hj (by omega)]) <;>
    trivial

theorem stackBlocks_float (s : HudStats) (l : List HudElement) (x : F32) (k : Nat)
    (h : k + (l.map blockHeightSpec).sum < 16777216) :
    (stackBlocks s l (⟨x, ((k : Nat) : F32)⟩ : HudPos F32)).position
        = ⟨x, ((k + (l.map blockHeightSpec).sum : Nat) : F32)⟩
      ∧ (stackBlocks s l (⟨x, ((k : Nat) : F32)⟩ : HudPos F32)).calls.map (fun d => d.pos.y)
        = (stackOrdinatesSpec l k).map (fun o => ((o : Nat) : F32)) := by
  induction l generalizing k with
  | nil => exact ⟨rfl, rfl⟩
  | cons e es ih =>
    simp only [List.map_cons, List.sum_cons] at h
    obtain ⟨b1, b2⟩ := blockOf_float s e x k (by omega)
    obtain ⟨r1, r2⟩ := ih (k + blockHeightSpec e) (by omega)
    simp only [stackBlocks, stackOrdinatesSpec, List.map_append, List.map_map, List.map_cons,
      List.sum_cons, b1, b2, r1, r2]
    refine ⟨?_, rfl⟩
    rw [Nat.add_assoc]

theorem lineOffsetsSpec_bounds (e : HudElement) :
    (lineOffsetsSpec e).Pairwise (· < ·)
      ∧ (∀ o ∈ lineOffsetsSpec e, o + 16 ≤ blockHeightSpec e)
      ∧ lineOffsetsSpec e = ([0, 20, 40] : List Nat).take (lineOffsetsSpec e).length := by
  cases e <;> simp [lineOffsetsSpec, blockHeightSpec]

theorem stackOrdinatesSpec_bounds (l : List HudElement) (k : Nat) :
    (stackOrdinatesSpec l k).Pairwise (· < ·)
      ∧ ∀ o ∈ stackOrdinatesSpec l k, k ≤ o ∧ o + 16 ≤ k + (l.map blockHeightSpec).sum := by
  induction l generalizing k with
  | nil => simp [stackOrdinatesSpec]
  | cons e es ih =>
    obtain ⟨p1, p2, _⟩ := lineOffsetsSpec_bounds e
    obtain ⟨r1, r2⟩ := ih (k + blockHeightSpec e)
    have hblock : ∀ o ∈ (lineOffsetsSpec e).map (fun o => k + o),
        k ≤ o ∧ o + 16 ≤ k + blockHeightSpec e := by
      intro o ho
      obtain ⟨o', ho', rfl⟩ := List.mem_map.mp ho
      have := p2 o' ho'
      omega
    refine ⟨?_, ?_⟩
    · simp only [stackOrdinatesSpec, List.pairwise_append]
      refine ⟨?_, r1, ?_⟩
      · rw [List.pairwise_map]
        exact p1.imp (fun hab => by omega)
      · intro a ha b hb
        have h1 := hblock a ha
        have h2 := r2 b hb
        omega
    · intro o ho
      simp only [stackOrdinatesSpec, List.mem_append] at ho
      simp only [List.map_cons, List.sum_cons]
      rcases ho with ho | ho
      · have := hblock o ho
        omega
      · have := r2 o ho
        omega

theorem stackHeightSpec_cases (e : HudElements) :
    stackHeightSpec e
      = (if HudElement.StatSubmissions ∈ e then 24 else 0)
        + (if HudElement.StatDrawCalls ∈ e then 64 else 0)
        + (if HudElement.StatPipelines ∈ e then 44 else 0)
        + (if HudElement.StatMemory ∈ e then 44 else 0)
        + (if HudElement.StatGpuLoad ∈ e then 24 else 0) := by
  unfold stackHeightSpec enabledStack stackOrder
  by_cases h1 : HudElement.StatSubmissions ∈ e <;>
    by_cases h2 : HudElement.StatDrawCalls ∈ e <;>
    by_cases h3 : HudElement.StatPipelines ∈ e <;>
    by_cases h4 : HudElement.StatMemory ∈ e <;>
    by_cases h5 : HudElement.StatGpuLoad ∈ e <;>
    simp [h1, h2, h3, h4, h5, blockHeightSpec]

theorem enabledStack_steps {F : Type} [Add F] [NatCast F] (e : HudElements) (y : F) :
    (enabledStack e).foldl
        (fun y x => if x ∈ stackOrder then y + ((blockHeightSpec x : Nat) : F) else y) y
      = (enabledStack e).foldl (fun y x => y + ((blockHeightSpec x : Nat) : F)) y := by
  unfold enabledStack stackOrder
  by_cases h1 : HudElement.StatSubmissions ∈ e <;>
    by_cases h2 : HudElement.StatDrawCalls ∈ e <;>
    by_cases h3 : HudElement.StatPipelines ∈ e <;>
    by_cases h4 : HudElement.StatMemory ∈ e <;>
    by_cases h5 : HudElement.StatGpuLoad ∈ e <;>
    simp [h1, h2, h3, h4, h5]

/-- C11, as stated, fails: in `float`, with the pipeline and the memory block
enabled and the input ordinate `2 ^ 26`, `H` is 88 and `y + H` is the `float`
67108952, but `render` adds 44 twice, each sum rounded to a multiple of 8, and
returns the ordinate 67108960. -/
theorem render_position_rounds :
    stackHeightSpec pipelinesAndMemory.m_elements = 88
      ∧ ((67108864 : Nat) : F32) + ((88 : Nat) : F32) = ((67108952 : Nat) : F32)
      ∧ (render pipelinesAndMemory 0 1080
          (⟨((0 : Nat) : F32), ((67108864 : Nat) : F32)⟩ : HudPos F32)).position
        = ⟨((0 : Nat) : F32), ((67108960 : Nat) : F32)⟩
      ∧ (render pipelinesAndMemory 0 1080
          (⟨((0 : Nat) : F32), ((67108864 : Nat) : F32)⟩ : HudPos F32)).position
        ≠ ⟨((0 : Nat) : F32), ((67108864 : Nat) : F32)
            + ((stackHeightSpec pipelinesAndMemory.m_elements : Nat) : F32)⟩ := by
  refine ⟨by decide, by decide, by decide, by decide⟩

/-- C11, as the code has it: in `float`, for every element set and every input
position, `render` returns the input abscissa and the input ordinate with the
heights of the enabled stacked blocks (submissions 24, draw calls 64,
pipelines 44, memory 44, GPU load 24) added one after another, each sum
rounded; when the input ordinate is a whole number `k` with `k + H` below
`2 ^ 24`, `H` the sum of those heights, every sum is exact and `render`
returns `(x, k + H)`; the compiler-activity element adds nothing to `H`,
enabled or not, and the result does not depend on the clock reading that
decides whether its line is visible. -/
theorem render_position_float (s : HudStats) (now : Int) (surfaceHeight : Nat)
    (position : HudPos F32) :
    (render s now surfaceHeight position).position
        = ⟨position.x,
            (enabledStack s.m_elements).foldl
              (fun y e => y + ((blockHeightSpec e : Nat) : F32)) position.y⟩
      ∧ (∀ (x : F32) (k : Nat), k + stackHeightSpec s.m_elements < 16777216 →
          (render s now surfaceHeight (⟨x, ((k : Nat) : F32)⟩ : HudPos F32)).position
              = ⟨x, ((k : Nat) : F32) + ((stackHeightSpec s.m_elements : Nat) : F32)⟩
            ∧ ((k : Nat) : F32) + ((stackHeightSpec s.m_elements : Nat) : F32)
              = ((k + stackHeightSpec s.m_elements : Nat) : F32))
      ∧ stackHeightSpec s.m_elements
        = (if HudElement.StatSubmissions ∈ s.m_elements then 24 else 0)
          + (if HudElement.StatDrawCalls ∈ s.m_elements then 64 else 0)
          + (if HudElement.StatPipelines ∈ s.m_elements then 44 else 0)
          + (if HudElement.StatMemory ∈ s.m_elements then 44 else 0)
          + (if HudElement.StatGpuLoad ∈ s.m_elements then 24 else 0)
      ∧ stackHeightSpec (insert HudElement.CompilerActivity s.m_elements)
        = stackHeightSpec s.m_elements
      ∧ stackHeightSpec (s.m_elements.erase HudElement.CompilerActivity)
        = stackHeightSpec s.m_elements := by
  refine ⟨?_, ?_, stackHeightSpec_cases _, ?_, ?_⟩
  · rw [(render_eq_stack s now surfaceHeight position).1, stackBlocks_position_steps,
      enabledStack_steps]
  · intro x k hk
    have hsum : ((k : Nat) : F32) + ((stackHeightSpec s.m_elements : Nat) : F32)
        = ((k + stackHeightSpec s.m_elements : Nat) : F32) :=
      natCast_add_f32 _ _ (by omega) (by omega)
    refine ⟨?_, hsum⟩
    rw [(render_eq_stack s now surfaceHeight _).1, hsum]
    exact (stackBlocks_float s (enabledStack s.m_elements) x k hk).1
  · unfold stackHeightSpec
    rw [enabledStack_insert_compiler]
  · unfold stackHeightSpec
    rw [enabledStack_erase_compiler]

/-- An instance: submissions, memory and the compiler line enabled, from
`(10, 30)`; the position returned is `(10, 98)`. -/
theorem render_position_float_witness :
    30 + stackHeightSpec (stateWith {HudElement.StatSubmissions, HudElement.StatMemory,
        HudElement.CompilerActivity} zeroCounters).m_elements < 16777216
      ∧ (render (stateWith {HudElement.StatSubmissions, HudElement.StatMemory,
          HudElement.CompilerActivity} zeroCounters) 0 1080
          (⟨((10 : Nat) : F32), ((30 : Nat) : F32)⟩ : HudPos F32)).position
        = ⟨((10 : Nat) : F32), ((98 : Nat) : F32)⟩ :=
  ⟨by decide,
    ((render_position_float (stateWith {HudElement.StatSubmissions, HudElement.StatMemory,
      HudElement.CompilerActivity} zeroCounters) 0 1080
      (⟨((10 : Nat) : F32), ((30 : Nat) : F32)⟩ : HudPos F32)).2.1 ((10 : Nat) : F32) 30
      (by decide)).1.trans (by decide)⟩

/-- C18, as stated, fails: in `float`, with the draw-call block enabled and the
input ordinate `2 ^ 28`, the second and the third line are both drawn at
268435488, since `y + 20` and `y + 40` round to the same `float`; and at
`2 ^ 26` the second line is drawn 16 above the first, not 20. -/
theorem stack_lines_coincide :
    (render drawCallsOnly 0 1080
        (⟨((0 : Nat) : F32), ((268435456 : Nat) : F32)⟩ : HudPos F32)).calls.map
        (fun d => d.pos.y)
        = [((268435456 : Nat) : F32), ((268435488 : Nat) : F32), ((268435488 : Nat) : F32)]
      ∧ ¬ ((render drawCallsOnly 0 1080
        (⟨((0 : Nat) : F32), ((268435456 : Nat) : F32)⟩ : HudPos F32)).calls.map
        (fun d => d.pos.y)).Pairwise (· < ·)
      ∧ (render drawCallsOnly 0 1080
        (⟨((0 : Nat) : F32), ((67108864 : Nat) : F32)⟩ : HudPos F32)).calls.map
        (fun d => d.pos.y)
        = [((67108864 : Nat) : F32), ((67108880 : Nat) : F32), ((67108904 : Nat) : F32)] := by
  refine ⟨by decide, by decide, by decide⟩

/-- C18, as the code has it: in `float`, for every element set and every input
position whose ordinate is a whole number `k` with `k + H` below `2 ^ 24`,
`H` the sum of the heights of the enabled stacked blocks, the stacked blocks
drawn by `render` do not overlap.  A block started at a whole number draws its
lines at the offsets 0, 20 and 40 from its start, as many as it has lines;
each offset plus the font size 16 is at most the height of the block; the
block returns its start plus its height, where the next block starts; and the
ordinates of the stacked lines that `render` draws are strictly increasing. -/
theorem stack_never_overlaps_float (s : HudStats) (now : Int) (surfaceHeight : Nat)
    (x : F32) (k : Nat) (hk : k + stackHeightSpec s.m_elements < 16777216) :
    (∀ e ∈ stackOrder, ∀ (x' : F32) (j : Nat), j + blockHeightSpec e < 16777216 →
        (blockOf s e (⟨x', ((j : Nat) : F32)⟩ : HudPos F32)).calls.map (fun d => d.pos.y)
            = (lineOffsetsSpec e).map (fun o => ((j + o : Nat) : F32))
          ∧ lineOffsetsSpec e = ([0, 20, 40] : List Nat).take (lineOffsetsSpec e).length
          ∧ (∀ o ∈ lineOffsetsSpec e, o + 16 ≤ blockHeightSpec e)
          ∧ (∀ d ∈ (blockOf s e (⟨x', ((j : Nat) : F32)⟩ : HudPos F32)).calls, d.size = 16)
          ∧ (blockOf s e (⟨x', ((j : Nat) : F32)⟩ : HudPos F32)).position
            = ⟨x', ((j + blockHeightSpec e : Nat) : F32)⟩)
      ∧ (render s now surfaceHeight (⟨x, ((k : Nat) : F32)⟩ : HudPos F32)).calls
        = (stackBlocks s (enabledStack s.m_elements)
            (⟨x, ((k : Nat) : F32)⟩ : HudPos F32)).calls
          ++ (if HudElement.CompilerActivity ∈ s.m_elements then
                (printCompilerActivity s now
                  ⟨x, ((surfaceHeight : Nat) : F32) - ((20 : Nat) : F32)⟩).calls
              else [])
      ∧ (stackBlocks s (enabledStack s.m_elements)
          (⟨x, ((k : Nat) : F32)⟩ : HudPos F32)).calls.map (fun d => d.pos.y)
        = (stackOrdinatesSpec (enabledStack s.m_elements) k).map (fun o => ((o : Nat) : F32))
      ∧ (stackOrdinatesSpec (enabledStack s.m_elements) k).Pairwise (· < ·)
      ∧ ((stackBlocks s (enabledStack s.m_elements)
          (⟨x, ((k : Nat) : F32)⟩ : HudPos F32)).calls.map (fun d => d.pos.y)).Pairwise
          (· < ·) := by
  have hlines := (stackBlocks_float s (enabledStack s.m_elements) x k hk).2
  obtain ⟨hsorted, hbounds⟩ := stackOrdinatesSpec_bounds (enabledStack s.m_elements) k
  refine ⟨?_, (render_eq_stack s now surfaceHeight _).2, hlines, hsorted, ?_⟩
  · intro e he x' j hj
    obtain ⟨b1, b2⟩ := blockOf_float s e x' j hj
    obtain ⟨_, p2, p3⟩ := lineOffsetsSpec_bounds e
    refine ⟨b2, p3, p2, ?_, b1⟩
    simp only [stackOrder, List.mem_cons, List.mem_singleton, List.not_mem_nil, or_false] at he
    rcases he with rfl | rfl | rfl | rfl | rfl <;>
      simp [blockOf, printSubmissionStats, printDrawCallStats, printPipelineStats,
        printMemoryStats, printGpuLoad]
  · rw [hlines, List.pairwise_map]
    refine List.Pairwise.imp_of_mem ?_ hsorted
    intro a b ha hb hab
    have h1 := (hbounds a ha).2
    have h2 := (hbounds b hb).2
    exact natCast_lt_f32 a b (by unfold stackHeightSpec at hk; omega)
      (by unfold stackHeightSpec at hk; omega) hab

/-- An instance: the five stacked blocks from `(0, 0)`; the lines are drawn
at the ordinates 0, 24, 44, 64, 88, 108, 132, 152 and 176. -/
theorem stack_never_overlaps_float_witness :
    0 + stackHeightSpec (stateWith {HudElement.StatSubmissions, HudElement.StatDrawCalls,
        HudElement.StatPipelines, HudElement.StatMemory, HudElement.StatGpuLoad}
        zeroCounters).m_elements < 16777216
      ∧ stackOrdinatesSpec (enabledStack (stateWith {HudElement.StatSubmissions,
          HudElement.StatDrawCalls, HudElement.StatPipelines, HudElement.StatMemory,
          HudElement.StatGpuLoad} zeroCounters).m_elements) 0
        = [0, 24, 44, 64, 88, 108, 132, 152, 176]
      ∧ ((stackBlocks (stateWith {HudElement.StatSubmissions, HudElement.StatDrawCalls,
          HudElement.StatPipelines, HudElement.StatMemory, HudElement.StatGpuLoad}
          zeroCounters)
          (enabledStack (stateWith {HudElement.StatSubmissions, HudElement.StatDrawCalls,
            HudElement.StatPipelines, HudElement.StatMemory, HudElement.StatGpuLoad}
            zeroCounters).m_elements)
          (⟨((0 : Nat) : F32), ((0 : Nat) : F32)⟩ : HudPos F32)).calls.map
          (fun d => d.pos.y)).Pairwise (· < ·) :=
  ⟨by decide, by decide,
    (stack_never_overlaps_float (stateWith {HudElement.StatSubmissions,
      HudElement.StatDrawCalls, HudElement.StatPipelines, HudElement.StatMemory,
      HudElement.StatGpuLoad} zeroCounters) 0 1080 ((0 : Nat) : F32) 0
      (by decide)).2.2.2.2⟩

end dxvk.hud
